import Mathlib

set_option linter.unusedVariables false

/-! # Napa Valley event finder — verification of the spec claims

Shallow embedding of the extraction/normalization/aggregation pipeline of the
repository (iterations in `src/api/search.js` and `src/unnamed/part_000..002`),
followed by theorems settling the frozen claims.  Strings are modelled by
`String` with list-based helper operations so every definition evaluates in the
kernel; JS numbers in the date arithmetic are modelled by `Int`; fallible JS
code (a thrown exception) is modelled by `Except Unit`.  Recursive scanners take
an explicit fuel argument; every step consumes at least one character, so any
fuel of at least the input length reproduces the JS behaviour. -/

namespace NVF

/-! ## Character and string primitives (JS semantics helpers) -/

/-- Digit value of a character, `c - '0'`. -/
def digitVal (c : Char) : Nat := c.toNat - '0'.toNat

/-- JS `String.prototype.toLowerCase`, restricted to ASCII (all inputs here are ASCII). -/
def jsLower (s : String) : String := ⟨s.toList.map Char.toLower⟩

/-- JS `hay.includes(nee)` (substring test), list-based so it evaluates in the kernel. -/
def containsSub (hay nee : String) : Bool :=
  go hay.toList
where
  go : List Char → Bool
    | [] => nee.toList.isPrefixOf []
    | c :: cs => nee.toList.isPrefixOf (c :: cs) || go cs

/-- JS `s.endsWith(suf)`, list-based. -/
def jsEndsWith (s suf : String) : Bool := suf.toList.isSuffixOf s.toList

/-- Lexicographic code-unit comparison on character lists (JS `<` on strings,
    which all-ASCII date strings hit), written so it evaluates in the kernel. -/
def jsStrLtb : List Char → List Char → Bool
  | [], [] => false
  | [], _ :: _ => true
  | _ :: _, [] => false
  | a :: as, b :: bs => if a < b then true else if b < a then false else jsStrLtb as bs

/-- JS `a < b` on strings. -/
def jsLt (a b : String) : Bool := jsStrLtb a.toList b.toList

/-- JS `a <= b` on strings. -/
def jsLe (a b : String) : Bool := !jsStrLtb b.toList a.toList

/-- Number of (possibly overlapping) occurrences of `nee` in `hay`. -/
def countOccs (hay nee : String) : Nat :=
  go hay.toList
where
  go : List Char → Nat
    | [] => if nee.toList.isPrefixOf [] then 1 else 0
    | c :: cs => (if nee.toList.isPrefixOf (c :: cs) then 1 else 0) + go cs

/-- Split into maximal runs of non-whitespace (the pieces of JS `s.split(/\s+/)`
    with empty pieces dropped); `cur` accumulates the current word reversed. -/
def wsWordsAux (cur : List Char) : List Char → List (List Char)
  | [] => if cur.isEmpty then [] else [cur.reverse]
  | c :: cs =>
    if c.isWhitespace then
      if cur.isEmpty then wsWordsAux [] cs else cur.reverse :: wsWordsAux [] cs
    else wsWordsAux (c :: cur) cs

/-- JS `s.replace(/\s+/g, " ").trim()`. -/
def collapseWs (s : String) : String :=
  String.intercalate " " ((wsWordsAux [] s.toList).map String.mk)

/-! ## decodeEntities (search.js first iteration, lines 99-109) -/

/-- JS `String.fromCodePoint`: throws above U+10FFFF.  (For surrogate code points
    JS builds a lone surrogate; `Char.ofNat` substitutes a default character there,
    a corner no claim exercises.) -/
def fromCodePointJS (n : Nat) : Except Unit (List Char) :=
  if n ≤ 0x10FFFF then .ok [Char.ofNat n] else .error ()

/-- Decimal digit run to a number. -/
def digitsToNat (ds : List Char) : Nat := ds.foldl (fun a c => a * 10 + digitVal c) 0

def isHexDigit (c : Char) : Bool := c.isDigit || ('a' ≤ c && c ≤ 'f') || ('A' ≤ c && c ≤ 'F')

def hexVal (c : Char) : Nat :=
  if c.isDigit then digitVal c
  else if 'a' ≤ c ∧ c ≤ 'f' then c.toNat - 'a'.toNat + 10
  else c.toNat - 'A'.toNat + 10

/-- Hexadecimal digit run to a number. -/
def hexToNat (ds : List Char) : Nat := ds.foldl (fun a c => a * 16 + hexVal c) 0

/-- One global pass of `s.replace(/&#(\d+);/g, (_, n) => String.fromCodePoint(+n))`
    (search.js line 102).  On a failed match at a `&` the scan resumes one
    character later, as the regex engine does. -/
def replaceDecRefs : Nat → List Char → Except Unit (List Char)
  | _, [] => .ok []
  | 0, l => .ok l
  | fuel + 1, '&' :: '#' :: rest =>
    (match rest.takeWhile Char.isDigit, rest.drop (rest.takeWhile Char.isDigit).length with
     | ds@(_ :: _), ';' :: tail => do
         let rep ← fromCodePointJS (digitsToNat ds)
         let t ← replaceDecRefs fuel tail
         .ok (rep ++ t)
     | _, _ => do
         let t ← replaceDecRefs fuel ('#' :: rest)
         .ok ('&' :: t))
  | fuel + 1, c :: cs => do
      let t ← replaceDecRefs fuel cs
      .ok (c :: t)

/-- One global pass of `s.replace(/&#x([0-9a-fA-F]+);/g, ...)` (search.js line 103). -/
def replaceHexRefs : Nat → List Char → Except Unit (List Char)
  | _, [] => .ok []
  | 0, l => .ok l
  | fuel + 1, '&' :: '#' :: 'x' :: rest =>
    (match rest.takeWhile isHexDigit, rest.drop (rest.takeWhile isHexDigit).length with
     | ds@(_ :: _), ';' :: tail => do
         let rep ← fromCodePointJS (hexToNat ds)
         let t ← replaceHexRefs fuel tail
         .ok (rep ++ t)
     | _, _ => do
         let t ← replaceHexRefs fuel ('#' :: 'x' :: rest)
         .ok ('&' :: t))
  | fuel + 1, c :: cs => do
      let t ← replaceHexRefs fuel cs
      .ok (c :: t)

/-- Lookup of the named-entity table after a `&` (search.js lines 104-105). -/
def namedRepl : List Char → Option (Char × List Char)
  | 'a' :: 'm' :: 'p' :: ';' :: t => some ('&', t)
  | 'q' :: 'u' :: 'o' :: 't' :: ';' :: t => some ('"', t)
  | 'a' :: 'p' :: 'o' :: 's' :: ';' :: t => some (Char.ofNat 39, t)
  | 'l' :: 't' :: ';' :: t => some ('<', t)
  | 'g' :: 't' :: ';' :: t => some ('>', t)
  | 'n' :: 'b' :: 's' :: 'p' :: ';' :: t => some (' ', t)
  | _ => none

/-- One global pass of the named-entity replacement (search.js line 105); total. -/
def replaceNamedRefs : Nat → List Char → List Char
  | _, [] => []
  | 0, l => l
  | fuel + 1, '&' :: rest =>
    (match namedRepl rest with
     | some (c, t) => c :: replaceNamedRefs fuel t
     | none => '&' :: replaceNamedRefs fuel rest)
  | fuel + 1, c :: cs => c :: replaceNamedRefs fuel cs

/-- search.js first-iteration `decodeEntities` (lines 99-106): decimal pass, then
    hex pass, then the named-entity pass; a `String.fromCodePoint` throw is the
    `.error` outcome. -/
def decodeEntities (str : String) : Except Unit String := do
  let l := str.toList
  let d ← replaceDecRefs (l.length + 1) l
  let h ← replaceHexRefs (d.length + 1) d
  .ok ⟨replaceNamedRefs (h.length + 1) h⟩

/-- search.js `cleanText` (lines 107-109). -/
def cleanText (s : String) : Except Unit String := (decodeEntities s).map collapseWs

/-- Scanner parallel to `replaceDecRefs` checking that every decimal character
    reference denotes a code point within `String.fromCodePoint`'s bound. -/
def decRefsBounded : Nat → List Char → Bool
  | _, [] => true
  | 0, _ => true
  | fuel + 1, '&' :: '#' :: rest =>
    (match rest.takeWhile Char.isDigit, rest.drop (rest.takeWhile Char.isDigit).length with
     | ds@(_ :: _), ';' :: tail =>
       decide (digitsToNat ds ≤ 0x10FFFF) && decRefsBounded fuel tail
     | _, _ => decRefsBounded fuel ('#' :: rest))
  | fuel + 1, _ :: cs => decRefsBounded fuel cs

/-- Scanner parallel to `replaceHexRefs` checking the hexadecimal references. -/
def hexRefsBounded : Nat → List Char → Bool
  | _, [] => true
  | 0, _ => true
  | fuel + 1, '&' :: '#' :: 'x' :: rest =>
    (match rest.takeWhile isHexDigit, rest.drop (rest.takeWhile isHexDigit).length with
     | ds@(_ :: _), ';' :: tail =>
       decide (hexToNat ds ≤ 0x10FFFF) && hexRefsBounded fuel tail
     | _, _ => hexRefsBounded fuel ('#' :: 'x' :: rest))
  | fuel + 1, _ :: cs => hexRefsBounded fuel cs

/-! ## Generic titles and price inference (C7, C9) -/

def genericTitles : List String :=
  ["read more", "event details", "learn more", "details", "view event"]

/-- search.js `isGenericTitle` (lines 139-142). -/
def isGenericTitle (t : String) : Except Unit Bool :=
  (cleanText t).map (fun x => genericTitles.contains (jsLower x))

/-- search.js `inferPriceFromText` (lines 149-153): any substring occurrence of
    "free", "no cover" or "complimentary" yields "Free.". -/
def inferPriceFromText (t : String) : Except Unit (Option String) :=
  (cleanText t).map fun ct =>
    let l := jsLower ct
    if l = "" then none
    else if ["free", "no cover", "complimentary"].any (fun x => containsSub l x) then
      some "Free."
    else none

/-! ## Event records, formatting, dedupe, interleave (C1, C2, C4) -/

/-- JS truthiness for an optional string: `null`/`undefined` and `""` are falsy. -/
def jsOptS : Option String → Option String
  | some s => if s = "" then none else some s
  | none => none

/-- JS `v || dflt` for strings. -/
def jsOr (v dflt : String) : String := if v = "" then dflt else v

/-- Geographic hint; coordinates are the sources' decimal literals scaled by 10^4
    to integers (the model never computes with them). -/
structure Geo where
  lat : Int
  lon : Int
deriving DecidableEq, Repr

/-- search.js `GEO_HINTS` (lines 248-254). -/
def GEO_HINTS (t : String) : Option Geo :=
  if t = "napa" then some ⟨382975, -1222869⟩
  else if t = "st-helena" then some ⟨385056, -1224703⟩
  else if t = "yountville" then some ⟨383926, -1223631⟩
  else if t = "calistoga" then some ⟨385780, -1225797⟩
  else if t = "american-canyon" then some ⟨381686, -1222608⟩
  else none

/-- The event record produced by the search.js extraction and parsers
    (first iteration). -/
structure Ev where
  title : String
  url : Option String
  dateISO : Option String
  whenStr : String
  details : String
  price : String
  contact : String
  address : String
  town : String
  tag : String
  sourceId : Option String
  geo : Option Geo
deriving DecidableEq, Repr

/-- A formatted card as returned by search.js `formatWeekender` (lines 418-425). -/
structure Card where
  header : String
  body : String
  geo : Option Geo
  dateISO : Option String
  sourceId : Option String
  url : Option String
deriving DecidableEq, Repr

def smallWords : List String :=
  ["a", "an", "and", "at", "but", "by", "for", "in", "of", "on", "or", "the", "to", "with"]

def capWord : List Char → List Char
  | [] => []
  | c :: cs => c.toUpper :: cs

/-- search.js `titleCase` (lines 130-137): words lower-cased, small words after the
    first kept lower, others capitalized.  (On all-blank nonempty input the JS code
    would throw on `c[0]`; no caller produces that.) -/
def titleCase (s : String) : String :=
  if s = "" then s
  else
    String.intercalate " "
      ((wsWordsAux [] s.toList).enum.map fun p =>
        let c := p.2.map Char.toLower
        if p.1 ≠ 0 ∧ smallWords.contains (String.mk c) then String.mk c
        else String.mk (capWord c))

/-- JS `s.replace("-", " ")` (first occurrence only). -/
def replaceFirstDash : List Char → List Char
  | [] => []
  | '-' :: t => ' ' :: t
  | c :: t => c :: replaceFirstDash t

/-- search.js `formatWeekender` (lines 399-426). -/
def formatWeekender (e : Ev) : Card :=
  let header := titleCase (jsOr e.title "Event")
  let dateLine := jsOr e.whenStr "Date and time on website."
  let details := jsOr e.details "Details on website."
  let price := jsOr e.price "Price not provided."
  let contact := jsOr e.contact
    (match jsOptS e.url with
     | some u => "For more information visit their website (" ++ u ++ ")."
     | none => "For more information visit their website.")
  let address0 := jsOr e.address "Venue address not provided."
  let address :=
    if address0 = "Venue address not provided." ∧ e.town ≠ "" ∧ e.town ≠ "all" then
      titleCase ⟨replaceFirstDash e.town.toList⟩ ++ ", CA"
    else address0
  let geo :=
    match e.geo with
    | some g => some g
    | none => GEO_HINTS (jsLower e.town)
  { header := header,
    body := collapseWs (dateLine ++ " " ++ details ++ " " ++ price ++ " " ++ contact ++ " " ++ address),
    geo := geo,
    dateISO := jsOptS e.dateISO,
    sourceId := jsOptS e.sourceId,
    url := jsOptS e.url }

/-- search.js `dedupeEvents` key (line 599): the URL when truthy, else
    `title + "||" + dateISO`. -/
def evKey (e : Ev) : String :=
  match jsOptS e.url with
  | some u => u
  | none => e.title ++ "||" ++ ((jsOptS e.dateISO).getD "")

def dedupeGo (seen : List String) : List Ev → List Ev
  | [] => []
  | e :: rest =>
    if evKey e = "" ∨ seen.contains (evKey e) then dedupeGo seen rest
    else e :: dedupeGo (evKey e :: seen) rest

/-- search.js `dedupeEvents` (lines 595-605). -/
def dedupeEvents (events : List Ev) : List Ev := dedupeGo [] events

/-- One pass of the interleave loop: pop the head of each queue in order while
    capacity remains; returns the picks and the advanced queues. -/
def rrRound {α : Type} : List (List α) → Nat → List α × List (List α)
  | [], _ => ([], [])
  | q :: qs, 0 => ([], q :: qs)
  | [] :: qs, n =>
    let r := rrRound qs n
    (r.1, [] :: r.2)
  | (x :: q) :: qs, n + 1 =>
    let r := rrRound qs n
    (x :: r.1, q :: r.2)

/-- The `while` loop of search.js `interleaveBySource` / part_001
    `balanceAcrossTowns`: rounds until the limit is reached or a round adds
    nothing.  Each continuing round adds at least one element, so `fuel = limit`
    reproduces the JS loop. -/
def rrLoop {α : Type} : Nat → List (List α) → Nat → List α
  | 0, _, _ => []
  | fuel + 1, queues, limit =>
    if limit = 0 then []
    else
      let r := rrRound queues limit
      if r.1.isEmpty then []
      else r.1 ++ rrLoop fuel r.2 (limit - r.1.length)

/-- search.js `interleaveBySource` (lines 607-622). -/
def interleaveBySource (grouped : List (List Ev)) (limit : Nat) : List Ev :=
  rrLoop limit grouped limit

/-- `e?.sourceId || "unknown"` (handler line 858). -/
def sidOf (e : Ev) : String := (jsOptS e.sourceId).getD "unknown"

def dedupStringsGo (seen : List String) : List String → List String
  | [] => []
  | s :: rest =>
    if seen.contains s then dedupStringsGo seen rest
    else s :: dedupStringsGo (s :: seen) rest

/-- The handler's `bySource` map (search.js lines 854-861): keys in first-appearance
    order, each with its events in arrival order. -/
def groupBySource (evs : List Ev) : List (List Ev) :=
  (dedupStringsGo [] (evs.map sidOf)).map fun k => evs.filter fun e => sidOf e = k

/-- The "More Venues To Check" supplement record (search.js handler lines 874-891). -/
def supplementEv : Ev :=
  { title := "More Venues To Check", url := none, dateISO := none,
    whenStr := "Dates and times vary.",
    details := "If you need additional options, check venue calendars for Lincoln Theater (Yountville), Uptown Theatre (Napa), Lucky Penny Productions (Napa) and Cameo Cinema (St. Helena).",
    price := "Price not provided.",
    contact := "For more information visit venue websites.",
    address := "Napa County.", town := "all", tag := "any",
    sourceId := some "supplement", geo := none }

/-- The search.js handler aggregation stage (lines 854-918): group by source,
    dedupe per group, interleave, dedupe again, supplement when thin, format
    each record, and cut to `limit`. -/
def handlerCards (events : List Ev) (limit : Nat) : List Card :=
  let grouped := (groupBySource events).map dedupeEvents
  let interleaved := dedupeEvents (interleaveBySource grouped (max (limit * 3) 15))
  let finalEvents := if interleaved.length < 3 then interleaved ++ [supplementEv] else interleaved
  (finalEvents.map formatWeekender).take limit

/-- The event list underlying the first `limit` cards of `handlerCards` (the map to
    cards preserves positions, so town multiplicity questions are read off here). -/
def handlerSelection (events : List Ev) (limit : Nat) : List Ev :=
  let grouped := (groupBySource events).map dedupeEvents
  let interleaved := dedupeEvents (interleaveBySource grouped (max (limit * 3) 15))
  let finalEvents := if interleaved.length < 3 then interleaved ++ [supplementEv] else interleaved
  finalEvents.take limit

/-! ## Date filtering (C1) -/

/-- search.js `withinRange` (lines 123-128): an undated record always passes; a
    dated one must lie inside the closed window. -/
def withinRange (dateISO start stop : Option String) : Bool :=
  match jsOptS dateISO with
  | none => true
  | some d =>
    if (match jsOptS start with | some s => jsLt d s | none => false) then false
    else if (match jsOptS stop with | some e => jsLt e d | none => false) then false
    else true

/-- The request-side filters of search.js (handler lines 813-818). -/
structure Filters where
  town : String
  type : String
  startISO : Option String
  endISO : Option String
deriving Repr

/-- The per-event conditions of the search.js `filterEvents` loop (lines 565-580):
    town, then type, then the date rule — a dated event must have its `dateISO`
    within the window; an undated one survives only when no bound was given. -/
def keepEvent (e : Ev) (f : Filters) : Bool :=
  if f.town ≠ "" ∧ f.town ≠ "all" ∧ e.town ≠ "" ∧ e.town ≠ f.town then false
  else if f.type ≠ "" ∧ f.type ≠ "any" ∧ e.tag ≠ "" ∧ e.tag ≠ f.type then false
  else
    match jsOptS e.dateISO with
    | some d => withinRange (some d) f.startISO f.endISO
    | none => !((jsOptS f.startISO).isSome || (jsOptS f.endISO).isSome)

/-- Sort key of the search.js comparator (lines 583-590). -/
def sortKeyDate (e : Ev) : String := (jsOptS e.dateISO).getD "9999-12-31"

/-- The comparator of search.js `filterEvents` as a total `le` (soonest first,
    ties by lower-cased title). -/
def evLe (a b : Ev) : Bool :=
  if sortKeyDate a ≠ sortKeyDate b then jsLt (sortKeyDate a) (sortKeyDate b)
  else jsLe (jsLower a.title) (jsLower b.title)

def insertEv (e : Ev) : List Ev → List Ev
  | [] => [e]
  | x :: xs => if evLe x e then x :: insertEv e xs else e :: x :: xs

/-- Stable sort by `evLe` (the JS engine's `Array.prototype.sort` is stable). -/
def sortEvents (l : List Ev) : List Ev := l.foldr insertEv []

/-- search.js `filterEvents` (lines 563-593): filter, then sort soonest first. -/
def filterEvents (events : List Ev) (f : Filters) : List Ev :=
  sortEvents (events.filter fun e => keepEvent e f)

/-- part_001 `overlapsRange` (lines 259-270): a dated event is kept exactly when
    its `[start, end]` span meets the requested window; missing event end falls
    back to the start; a fully undated event is excluded. -/
def overlapsRange (evStart evEnd fStart fEnd : Option String) : Bool :=
  let s := jsOptS evStart
  let e := match jsOptS evEnd with | some x => some x | none => s
  if s.isNone ∧ e.isNone then false
  else if (match jsOptS fStart, e with
           | some fs, some ee => jsLt ee fs
           | _, _ => false) then false
  else if (match jsOptS fEnd, s with
           | some fe, some ss => jsLt fe ss
           | _, _ => false) then false
  else true

/-! ## Town balancing (C4, part_001) and header+body dedupe (C2, part_000) -/

/-- A part_001 formatted record as consumed by `balanceAcrossTowns`
    (fields `header`, `body`, `_town` — the latter named `town` here). -/
structure PRec where
  header : String
  body : String
  town : String
deriving DecidableEq, Repr

/-- part_001 `TOWN_ORDER` (line 578). -/
def TOWN_ORDER : List String :=
  ["napa", "st-helena", "yountville", "calistoga", "american-canyon", "all", "other"]

/-- Bucket key of one record (part_001 lines 583-586): its town when recognized
    and truthy, else "other". -/
def bucketKeyOf (it : PRec) : String :=
  if it.town = "" then "other"
  else if TOWN_ORDER.contains it.town then it.town else "other"

def prKey (x : PRec) : String := x.header ++ "||" ++ x.body

/-- Leftover fill of `balanceAcrossTowns` (part_001 lines 609-618). -/
def fillLeftover (limit : Nat) (picked : List PRec) (items : List PRec) : List PRec :=
  go picked (picked.map prKey) items
where
  go (acc : List PRec) (seen : List String) : List PRec → List PRec
    | [] => acc
    | it :: rest =>
      if limit ≤ acc.length then acc
      else if seen.contains (prKey it) then go acc seen rest
      else go (acc ++ [it]) (prKey it :: seen) rest

/-- part_001 `balanceAcrossTowns` (lines 576-621): bucket by the fixed town order,
    round-robin one per town per round, then fill leftovers in original order. -/
def balanceAcrossTowns (items : List PRec) (limit : Nat) : List PRec :=
  let queues := TOWN_ORDER.map fun t => items.filter fun it => bucketKeyOf it = t
  let picked := rrLoop limit queues limit
  if picked.length < limit then fillLeftover limit picked items else picked

/-- A part_000 formatted record (header + body) as deduplicated by its handler. -/
structure HB where
  header : String
  body : String
deriving DecidableEq, Repr

/-- part_000 handler dedupe key (line 316): `header + "|" + body`. -/
def hbKey (x : HB) : String := x.header ++ "|" ++ x.body

def dedupHBGo (seen : List String) : List HB → List HB
  | [] => []
  | x :: rest =>
    if seen.contains (hbKey x) then dedupHBGo seen rest
    else x :: dedupHBGo (hbKey x :: seen) rest

/-- part_000 handler deduplication (lines 313-320): drop records whose rendered
    header+body key already appeared. -/
def dedupeByHeaderBody (all : List HB) : List HB := dedupHBGo [] all

/-! ## AP-style dates (C5, C6) -/

def AP_DOW : List String := ["Sun", "Mon", "Tue", "Wed", "Thu", "Fri", "Sat"]

def AP_MON : List String :=
  ["Jan.", "Feb.", "March", "April", "May", "June", "July", "Aug.", "Sept.", "Oct.", "Nov.", "Dec."]

/-- Exact-shape parse of the anchored regex `^(\d{4})-(\d{2})-(\d{2})$`. -/
def parseYMD (s : String) : Option (Nat × Nat × Nat) :=
  match s.toList with
  | [a, b, c, d, s1, e, f, s2, g, h] =>
    if a.isDigit ∧ b.isDigit ∧ c.isDigit ∧ d.isDigit ∧ s1 = '-' ∧ e.isDigit ∧ f.isDigit
        ∧ s2 = '-' ∧ g.isDigit ∧ h.isDigit then
      some (1000 * digitVal a + 100 * digitVal b + 10 * digitVal c + digitVal d,
            10 * digitVal e + digitVal f, 10 * digitVal g + digitVal h)
    else none
  | _ => none

/-- Prefix match of `/^(\d{4}-\d{2}-\d{2})/` on `iso || ""` (search.js
    `ymdFromISOish`, lines 371-374; identical to part_001 `getYMD`). -/
def ymdFromISOish (iso : Option String) : Option String :=
  match (iso.getD "").toList with
  | a :: b :: c :: d :: s1 :: e :: f :: s2 :: g :: h :: _ =>
    if a.isDigit ∧ b.isDigit ∧ c.isDigit ∧ d.isDigit ∧ s1 = '-' ∧ e.isDigit ∧ f.isDigit
        ∧ s2 = '-' ∧ g.isDigit ∧ h.isDigit then
      some ⟨[a, b, c, d, s1, e, f, s2, g, h]⟩
    else none
  | _ => none

/-- part_001 `getYMD` (lines 163-166), the same prefix match. -/
def getYMD : Option String → Option String := ymdFromISOish

def yyOf (y m : Int) : Int := if m ≤ 2 then y - 1 else y
def eraOf (yy : Int) : Int := yy / 400
def yoeOf (yy : Int) : Int := yy - 400 * eraOf yy
def mpOf (m : Int) : Int := (m + 9) % 12
def doyOf (m d : Int) : Int := (153 * mpOf m + 2) / 5 + d - 1
def doeOf (y m d : Int) : Int :=
  365 * yoeOf (yyOf y m) + yoeOf (yyOf y m) / 4 - yoeOf (yyOf y m) / 100 + doyOf m d

/-- Days since 1970-01-01 of a proleptic-Gregorian date — the day numbering that
    ECMAScript `Date.UTC` / `getUTCDay` realize (era-based civil-calendar formula). -/
def daysFromCivil (y m d : Int) : Int := 146097 * eraOf (yyOf y m) + doeOf y m d - 719468

/-- ECMAScript `getUTCDay` of a normalized date: 0 = Sunday (1970-01-01 was a
    Thursday). -/
def jsWeekday (y m d : Int) : Int := (daysFromCivil y m d + 4) % 7

def isLeap (y : Int) : Bool := decide ((y % 4 = 0 ∧ y % 100 ≠ 0) ∨ y % 400 = 0)

def daysInMonth (y m : Int) : Int :=
  if m = 2 then (if isLeap y then 29 else 28)
  else if m = 4 ∨ m = 6 ∨ m = 9 ∨ m = 11 then 30 else 31

/-- A valid proleptic-Gregorian calendar date (the reference notion of a valid
    ISO date). -/
def isValidDate (y m d : Int) : Bool :=
  decide (1 ≤ m ∧ m ≤ 12 ∧ 1 ≤ d ∧ d ≤ daysInMonth y m)

/-- ECMAScript `MakeDay` day-of-month normalization as a bounded carry/borrow walk
    (exact for the regex-limited inputs `1 ≤ m ≤ 12`, `0 ≤ d ≤ 99`; fuel 5 suffices
    since at most three month carries and one borrow can occur). -/
def normDays : Nat → Int → Int → Int → Int × Int × Int
  | 0, y, m, d => (y, m, d)
  | fuel + 1, y, m, d =>
    if d < 1 then
      (if m = 1 then normDays fuel (y - 1) 12 (d + 31)
       else normDays fuel y (m - 1) (d + daysInMonth y (m - 1)))
    else if daysInMonth y m < d then
      (if m = 12 then normDays fuel (y + 1) 1 (d - 31)
       else normDays fuel y (m + 1) (d - daysInMonth y m))
    else (y, m, d)

/-- ECMAScript `Date.UTC(y, m-1, d)` plus `getUTCFullYear/Month/Date`: years 0-99
    map to 19xx, the month index overflows into the year, then the day is
    normalized. -/
def jsDateYMD (y m d : Int) : Int × Int × Int :=
  let y1 := if 0 ≤ y ∧ y ≤ 99 then y + 1900 else y
  let t := y1 * 12 + (m - 1)
  normDays 5 (t / 12) (t % 12 + 1) d

/-- search.js `apDateFromYMD` (lines 161-167): parse `YYYY-MM-DD`, build the UTC
    date, render "Weekday, Month Day" from the AP tables.  (`isNaN` on line 165
    cannot fire for the regex-limited inputs.) -/
def apDateFromYMD (ymd : String) : Option String :=
  match parseYMD ymd with
  | none => none
  | some (y, m, d) =>
    let p := jsDateYMD (y : Int) (m : Int) (d : Int)
    some (AP_DOW.getD (jsWeekday p.1 p.2.1 p.2.2).toNat "" ++ ", "
      ++ AP_MON.getD (p.2.1 - 1).toNat "" ++ " " ++ toString p.2.2)

/-- search.js `apDateRangeFromYMD` (lines 169-193): equal endpoints fall back to
    the single-day weekday form; same normalized month and year collapse the
    second month name; otherwise both month names appear. -/
def apDateRangeFromYMD (startYMD endYMD : String) : Option String :=
  if startYMD = "" ∨ endYMD = "" then none
  else if startYMD = endYMD then apDateFromYMD startYMD
  else
    match parseYMD startYMD, parseYMD endYMD with
    | some (y1, m1, d1), some (y2, m2, d2) =>
      let p := jsDateYMD (y1 : Int) (m1 : Int) (d1 : Int)
      let q := jsDateYMD (y2 : Int) (m2 : Int) (d2 : Int)
      let sMon := AP_MON.getD (p.2.1 - 1).toNat ""
      let eMon := AP_MON.getD (q.2.1 - 1).toNat ""
      if sMon = eMon ∧ p.1 = q.1 then
        some (sMon ++ " " ++ toString p.2.2 ++ "–" ++ toString q.2.2)
      else
        some (sMon ++ " " ++ toString p.2.2 ++ "–" ++ eMon ++ " " ++ toString q.2.2)
    | _, _ => none

/-- Modelled from the spec: the "reference calendar calculation" for the weekday,
    written as Zeller's congruence (0 = Sunday) — independent of the epoch-day
    arithmetic the code model uses. -/
def refWeekday (y m d : Int) : Int :=
  ((d + 13 * ((if m ≤ 2 then m + 12 else m) + 1) / 5
    + yyOf y m % 100 + yyOf y m % 100 / 4 + yyOf y m / 100 / 4
    + 5 * (yyOf y m / 100)) % 7 + 6) % 7

/-- Modelled from the spec: the expected multi-day range text — the month uses the
    fixed AP table, the weekday is omitted, a span within one calendar month shows
    the month once. -/
def specRangeText (y1 m1 d1 y2 m2 d2 : Int) : String :=
  let mon1 := AP_MON.getD (m1 - 1).toNat ""
  let mon2 := AP_MON.getD (m2 - 1).toNat ""
  if y1 = y2 ∧ m1 = m2 then mon1 ++ " " ++ toString d1 ++ "–" ++ toString d2
  else mon1 ++ " " ++ toString d1 ++ "–" ++ mon2 ++ " " ++ toString d2

def pad2 (n : Nat) : String := ⟨[Nat.digitChar (n / 10 % 10), Nat.digitChar (n % 10)]⟩

def pad4 (n : Nat) : String :=
  ⟨[Nat.digitChar (n / 1000 % 10), Nat.digitChar (n / 100 % 10),
    Nat.digitChar (n / 10 % 10), Nat.digitChar (n % 10)]⟩

/-- The `YYYY-MM-DD` string of a numeric triple. -/
def printYMD (y m d : Nat) : String := pad4 y ++ "-" ++ pad2 m ++ "-" ++ pad2 d

/-- Whether a string is exactly a `\d{4}-\d{2}-\d{2}` token (syntactic shape only). -/
def isYMDShape (s : String) : Bool := (parseYMD s).isSome

/-! ## AP-style times (C3) -/

/-- The clock rendering shared by the iterations (search.js lines 227-232,
    part_000 lines 163-170): 12-hour clock, minutes shown only when nonzero,
    `a.m.`/`p.m.` suffix. -/
def apTimeParts (hour24 minute : Nat) : String :=
  (if minute ≠ 0 then
     toString (if hour24 % 12 = 0 then 12 else hour24 % 12) ++ ":" ++ pad2 minute
   else toString (if hour24 % 12 = 0 then 12 else hour24 % 12))
  ++ " " ++ (if 12 ≤ hour24 then "p.m." else "a.m.")

/-- A same-day ISO clock string `2026-05-02T<hh>:<mm>` for the time theorems. -/
def clockStr (h m : Nat) : String := "2026-05-02T" ++ pad2 h ++ ":" ++ pad2 m

/-- First match of `/T(\d{2}):(\d{2})/`: the scan resumes one character after a
    failed `T`. -/
def findClock : List Char → Option (Nat × Nat)
  | [] => none
  | 'T' :: rest =>
    (match rest with
     | a :: b :: ':' :: c :: d :: _ =>
       if a.isDigit ∧ b.isDigit ∧ c.isDigit ∧ d.isDigit then
         some (10 * digitVal a + digitVal b, 10 * digitVal c + digitVal d)
       else findClock rest
     | _ => findClock rest)
  | _ :: rest => findClock rest

/-- Suffix test of `/(?:Z|[+-]\d{2}:\d{2})$/`. -/
def hasTZSuffix (iso : String) : Bool :=
  jsEndsWith iso "Z" ||
  (match iso.toList.reverse with
   | d2 :: d1 :: ':' :: b2 :: b1 :: sgn :: _ =>
     d2.isDigit ∧ d1.isDigit ∧ b2.isDigit ∧ b1.isDigit ∧ (sgn = '+' ∨ sgn = '-')
   | _ => false)

/-- Drop a trailing timezone suffix (`Z` or `±hh:mm`) if present. -/
def stripTZ (l : List Char) : List Char :=
  match l.reverse with
  | 'Z' :: r => r.reverse
  | d2 :: d1 :: ':' :: b2 :: b1 :: sgn :: r =>
    if d2.isDigit ∧ d1.isDigit ∧ b2.isDigit ∧ b1.isDigit ∧ (sgn = '+' ∨ sgn = '-') then r.reverse
    else l
  | _ => l

/-- Drop a trailing `.digits` fraction if present. -/
def stripFrac (l : List Char) : List Char :=
  match l.reverse.takeWhile Char.isDigit, l.reverse.drop (l.reverse.takeWhile Char.isDigit).length with
  | _ :: _, '.' :: r => r.reverse
  | _, _ => l

/-- The midnight-placeholder test `/T00:00(?::00)?(?:\.\d+)?(?:Z|[+-]\d{2}:\d{2})?$/`
    (search.js line 200). -/
def isMidnightISO (iso : String) : Bool :=
  let base := stripFrac (stripTZ iso.toList)
  "T00:00".toList.isSuffixOf base || "T00:00:00".toList.isSuffixOf base

/-- search.js `apTimeFromISOClock` (lines 195-233).  A timestamp carrying an
    explicit offset goes through `new Date` plus an `Intl` conversion to
    America/Los_Angeles (lines 204-222); the model takes that branch as the
    oracle parameter `tz`, which no claim exercises. -/
def apTimeFromISOClock (tz : String → Option String) (iso : String) : Option String :=
  if iso = "" then none
  else if (parseYMD iso).isSome then none
  else if isMidnightISO iso then none
  else if hasTZSuffix iso then tz iso
  else
    match findClock iso.toList with
    | none => none
    | some (h, m) => some (apTimeParts h m)

/-- search.js `formatTimeRange` (lines 235-243): both renderings joined with an en
    dash; no meridiem is ever dropped. -/
def formatTimeRange (tz : String → Option String) (a b : String) : Option String :=
  match apTimeFromISOClock tz a, apTimeFromISOClock tz b with
  | none, none => none
  | some t1, none => some t1
  | none, some t2 => some t2
  | some t1, some t2 => if t1 = t2 then some t1 else some (t1 ++ "–" ++ t2)

/-- JS `t.replace(/\s(a\.m\.|p\.m\.)$/, "")` on the rendered times (whose only
    whitespace is a plain space). -/
def stripMeridiem (t : String) : String :=
  if jsEndsWith t " a.m." ∨ jsEndsWith t " p.m." then ⟨t.toList.take (t.toList.length - 5)⟩
  else t

/-- JS `parseInt((t.match(/^(\d{1,2})/) || [])[1] || "0", 10)`. -/
def leadingNat (t : String) : Nat :=
  match t.toList with
  | a :: b :: _ =>
    if a.isDigit then (if b.isDigit then 10 * digitVal a + digitVal b else digitVal a) else 0
  | [a] => if a.isDigit then digitVal a else 0
  | [] => 0

namespace Part000

/-- part_000 `apTimeFromISOClock` (lines 161-171): the bare regex clock, no
    timezone or midnight handling. -/
def apTimeFromISOClock (iso : String) : Option String :=
  match NVF.findClock iso.toList with
  | none => none
  | some (h, m) => some (NVF.apTimeParts h m)

/-- part_000 `formatTimeRange` (lines 173-189): a same-meridiem range whose first
    hour is not 12 drops the first meridiem and joins with " to ". -/
def formatTimeRange (startISO endISO : String) : Option String :=
  match apTimeFromISOClock startISO, apTimeFromISOClock endISO with
  | none, none => none
  | some t1, none => some t1
  | none, some t2 => some t2
  | some t1, some t2 =>
    if t1 = t2 then some t1
    else
      let mer1 := if NVF.jsEndsWith t1 "a.m." then "a.m." else "p.m."
      let mer2 := if NVF.jsEndsWith t2 "a.m." then "a.m." else "p.m."
      if mer1 = mer2 ∧ NVF.leadingNat t1 ≠ 12 then some (NVF.stripMeridiem t1 ++ " to " ++ t2)
      else some (t1 ++ " to " ++ t2)

/-- part_000 `inferPriceFromText` free-admission allow-list (line 200). -/
def freeSignals : List String :=
  ["no cover", "no cover charge", "free admission", "free entry", "free to attend",
   "admission is free", "free event", "no admission fee", "complimentary"]

/-- part_000 `inferPriceFromText` (lines 197-202): only the allow-listed phrases
    yield "Free."; a bare "free" elsewhere does not match. -/
def inferPriceFromText (t : String) : Except Unit (Option String) :=
  (NVF.cleanText t).map fun ct =>
    let l := NVF.jsLower ct
    if l = "" then none
    else if freeSignals.any (fun x => NVF.containsSub l x) then some "Free."
    else none

end Part000

/-! ## Extraction date normalization (C8) and fallback records (C9) -/

/-- part_001 `extractEventFromPage` date normalization (lines 443-444):
    `startYMD = getYMD(startISO)`, `endYMD = getYMD(endISO) || startYMD`. -/
def normalizeEventDates (startISO endISO : Option String) : Option String × Option String :=
  let sY := getYMD startISO
  let eY := match getYMD endISO with | some e => some e | none => sY
  (sY, eY)

/-- The options object threaded through search.js extraction. -/
structure ExtractOpts where
  town : Option String
  tag : Option String
  sourceId : Option String
deriving Repr

/-- The fallback record built in the `catch` of search.js `extractOrFallback`
    (lines 540-556). -/
def fallbackRecord (url : String) (title : String) (opts : ExtractOpts) : Ev :=
  let town := (jsOptS opts.town).getD "all"
  let geo := if town ≠ "all" then GEO_HINTS town else none
  { title := title, url := some url, dateISO := none,
    whenStr := "Date and time on website.",
    details := "Details on website.",
    price := "Price not provided.",
    contact := "For more information visit their website (" ++ url ++ ").",
    address := "Venue address not provided.",
    town := town, tag := (jsOptS opts.tag).getD "any",
    sourceId := opts.sourceId, geo := geo }

/-- search.js `extractOrFallback` (lines 531-558).  The outcome of
    `extractEventFromPage` (a network fetch) is a parameter: `.ok` with the page
    event, or `.error` for a network/parse failure, in which case the catch
    branch builds a fallback record from a usable listing title or drops the
    candidate. -/
def extractOrFallback (outcome : Except Unit Ev) (url : String) (title : Option String)
    (opts : ExtractOpts) : Except Unit (Option Ev) :=
  match outcome with
  | .ok ev => do
    let g1 ← isGenericTitle ev.title
    let ev1 := if g1 ∧ (jsOptS title).isSome then { ev with title := (jsOptS title).getD "" } else ev
    let g2 ← isGenericTitle ev1.title
    if g2 then .ok none else .ok (some ev1)
  | .error _ =>
    match jsOptS title with
    | none => .ok none
    | some t => do
      let g ← isGenericTitle t
      if g then .ok none else .ok (some (fallbackRecord url t opts))

end NVF

namespace NVF

/-! ## Helper lemmas: calendar arithmetic -/

theorem emod7_shift (A B k : Int) (h : A = B + 6 + 7 * k) :
    A % 7 = (B % 7 + 6) % 7 := by
  subst h; omega

/-- The year-term congruence behind Zeller's formula: for a month whose
    day-of-year offset is `L + 4 + 7t`, the epoch-day weekday equals the Zeller
    sum. -/
theorem weekdayZellerY (Y L t d : Int) :
    (146097 * (Y / 400) + (365 * (Y - 400 * (Y / 400)) + (Y - 400 * (Y / 400)) / 4
      - (Y - 400 * (Y / 400)) / 100 + ((L + 4 + 7 * t) + d - 1)) - 719468 + 4) % 7
    = ((d + L + Y % 100 + Y % 100 / 4 + Y / 100 / 4 + 5 * (Y / 100)) % 7 + 6) % 7 := by
  have hr : Y - 400 * (Y / 400) = Y % 400 := by omega
  rw [hr]
  have hj : Y % 400 = 100 * (Y / 100 - 4 * (Y / 400)) + Y % 100 := by omega
  have hjb : 0 ≤ Y / 100 - 4 * (Y / 400) ∧ Y / 100 - 4 * (Y / 400) ≤ 3 := by omega
  have ha1 : Y % 400 / 4 = 25 * (Y / 100 - 4 * (Y / 400)) + Y % 100 / 4 := by omega
  have hc1 : Y % 400 / 100 = Y / 100 - 4 * (Y / 400) := by omega
  have hu1 : Y / 100 / 4 = Y / 400 := by omega
  apply emod7_shift _ _
    (20868 * (Y / 400) + 5217 * (Y / 100 - 4 * (Y / 400)) + 52 * (Y % 100) + t - 102781)
  omega

set_option maxHeartbeats 1000000 in
/-- The model's epoch-day weekday agrees with Zeller's congruence on every month. -/
theorem weekday_eq_ref (y m d : Int) (hm1 : 1 ≤ m) (hm2 : m ≤ 12) :
    jsWeekday y m d = refWeekday y m d := by
  interval_cases m
  · simp only [jsWeekday, refWeekday, daysFromCivil, doeOf, doyOf, mpOf, yoeOf, eraOf, yyOf]
    norm_num
    have h := weekdayZellerY (y - 1) 36 38 d
    omega
  · simp only [jsWeekday, refWeekday, daysFromCivil, doeOf, doyOf, mpOf, yoeOf, eraOf, yyOf]
    norm_num
    have h := weekdayZellerY (y - 1) 39 42 d
    omega
  · simp only [jsWeekday, refWeekday, daysFromCivil, doeOf, doyOf, mpOf, yoeOf, eraOf, yyOf]
    norm_num
    have h := weekdayZellerY y 10 (-2) d
    omega
  · simp only [jsWeekday, refWeekday, daysFromCivil, doeOf, doyOf, mpOf, yoeOf, eraOf, yyOf]
    norm_num
    have h := weekdayZellerY y 13 2 d
    omega
  · simp only [jsWeekday, refWeekday, daysFromCivil, doeOf, doyOf, mpOf, yoeOf, eraOf, yyOf]
    norm_num
    have h := weekdayZellerY y 15 6 d
    omega
  · simp only [jsWeekday, refWeekday, daysFromCivil, doeOf, doyOf, mpOf, yoeOf, eraOf, yyOf]
    norm_num
    have h := weekdayZellerY y 18 10 d
    omega
  · simp only [jsWeekday, refWeekday, daysFromCivil, doeOf, doyOf, mpOf, yoeOf, eraOf, yyOf]
    norm_num
    have h := weekdayZellerY y 20 14 d
    omega
  · simp only [jsWeekday, refWeekday, daysFromCivil, doeOf, doyOf, mpOf, yoeOf, eraOf, yyOf]
    norm_num
    have h := weekdayZellerY y 23 18 d
    omega
  · simp only [jsWeekday, refWeekday, daysFromCivil, doeOf, doyOf, mpOf, yoeOf, eraOf, yyOf]
    norm_num
    have h := weekdayZellerY y 26 22 d
    omega
  · simp only [jsWeekday, refWeekday, daysFromCivil, doeOf, doyOf, mpOf, yoeOf, eraOf, yyOf]
    norm_num
    have h := weekdayZellerY y 28 26 d
    omega
  · simp only [jsWeekday, refWeekday, daysFromCivil, doeOf, doyOf, mpOf, yoeOf, eraOf, yyOf]
    norm_num
    have h := weekdayZellerY y 31 30 d
    omega
  · simp only [jsWeekday, refWeekday, daysFromCivil, doeOf, doyOf, mpOf, yoeOf, eraOf, yyOf]
    norm_num
    have h := weekdayZellerY y 33 34 d
    omega

theorem parseYMD_mk10 (a b c d s1 e f s2 g h : Char) :
    parseYMD ⟨[a, b, c, d, s1, e, f, s2, g, h]⟩
      = (if a.isDigit ∧ b.isDigit ∧ c.isDigit ∧ d.isDigit ∧ s1 = '-' ∧ e.isDigit ∧ f.isDigit
            ∧ s2 = '-' ∧ g.isDigit ∧ h.isDigit then
          some (1000 * digitVal a + 100 * digitVal b + 10 * digitVal c + digitVal d,
                10 * digitVal e + digitVal f, 10 * digitVal g + digitVal h)
        else none) := rfl

theorem printYMD_eq_mk (y m d : Nat) :
    printYMD y m d
      = ⟨[Nat.digitChar (y / 1000 % 10), Nat.digitChar (y / 100 % 10),
          Nat.digitChar (y / 10 % 10), Nat.digitChar (y % 10), '-',
          Nat.digitChar (m / 10 % 10), Nat.digitChar (m % 10), '-',
          Nat.digitChar (d / 10 % 10), Nat.digitChar (d % 10)]⟩ := rfl

theorem digitChar_isDigit (k : Nat) (hk : k < 10) : (Nat.digitChar k).isDigit = true := by
  interval_cases k <;> decide

theorem digitVal_digitChar (k : Nat) (hk : k < 10) : digitVal (Nat.digitChar k) = k := by
  interval_cases k <;> decide

theorem parseYMD_printYMD (y m d : Nat) (hy : y < 10000) (hm : m < 100) (hd : d < 100) :
    parseYMD (printYMD y m d) = some (y, m, d) := by
  rw [printYMD_eq_mk, parseYMD_mk10]
  rw [if_pos]
  · rw [digitVal_digitChar _ (Nat.mod_lt _ (by norm_num)),
      digitVal_digitChar _ (Nat.mod_lt _ (by norm_num)),
      digitVal_digitChar _ (Nat.mod_lt _ (by norm_num)),
      digitVal_digitChar _ (Nat.mod_lt _ (by norm_num)),
      digitVal_digitChar _ (Nat.mod_lt _ (by norm_num)),
      digitVal_digitChar _ (Nat.mod_lt _ (by norm_num)),
      digitVal_digitChar _ (Nat.mod_lt _ (by norm_num)),
      digitVal_digitChar _ (Nat.mod_lt _ (by norm_num))]
    refine congrArg some (Prod.ext ?_ (Prod.ext ?_ ?_)) <;> simp <;> omega
  · refine ⟨?_, ?_, ?_, ?_, rfl, ?_, ?_, rfl, ?_, ?_⟩ <;>
      exact digitChar_isDigit _ (Nat.mod_lt _ (by norm_num))

theorem printYMD_ne_empty (y m d : Nat) : printYMD y m d ≠ "" := by
  rw [printYMD_eq_mk]
  intro h
  have := congrArg String.toList h
  simp at this

theorem printYMD_inj (y1 m1 d1 y2 m2 d2 : Nat)
    (hy1 : y1 < 10000) (hm1 : m1 < 100) (hd1 : d1 < 100)
    (hy2 : y2 < 10000) (hm2 : m2 < 100) (hd2 : d2 < 100)
    (h : printYMD y1 m1 d1 = printYMD y2 m2 d2) : y1 = y2 ∧ m1 = m2 ∧ d1 = d2 := by
  have h1 := parseYMD_printYMD y1 m1 d1 hy1 hm1 hd1
  have h2 := parseYMD_printYMD y2 m2 d2 hy2 hm2 hd2
  rw [h, h2] at h1
  simp at h1
  exact ⟨h1.1.symm, h1.2.1.symm, h1.2.2.symm⟩

theorem normDays_valid (y m d : Int) (h : isValidDate y m d = true) :
    normDays 5 y m d = (y, m, d) := by
  simp only [isValidDate, decide_eq_true_eq] at h
  rw [normDays]
  rw [if_neg (by omega), if_neg (by omega)]

theorem jsDateYMD_valid (y m d : Int) (hy : 100 ≤ y) (h : isValidDate y m d = true) :
    jsDateYMD y m d = (y, m, d) := by
  have hm : 1 ≤ m ∧ m ≤ 12 := by
    simp only [isValidDate, decide_eq_true_eq] at h
    exact ⟨h.1, h.2.1⟩
  rw [jsDateYMD]
  have h1 : ¬ (0 ≤ y ∧ y ≤ 99) := by omega
  rw [if_neg h1]
  have h2 : (y * 12 + (m - 1)) / 12 = y := by omega
  have h3 : (y * 12 + (m - 1)) % 12 + 1 = m := by omega
  rw [h2, h3]
  exact normDays_valid y m d h

theorem validDate_bounds (y m d : Int) (h : isValidDate y m d = true) :
    1 ≤ m ∧ m ≤ 12 ∧ 1 ≤ d ∧ d ≤ 31 := by
  simp only [isValidDate, decide_eq_true_eq] at h
  unfold daysInMonth at h
  split_ifs at h <;> omega

theorem apDateFromYMD_parsed (s : String) (y m d : Nat) (h : parseYMD s = some (y, m, d)) :
    apDateFromYMD s
      = some (AP_DOW.getD (jsWeekday (jsDateYMD (y : Int) (m : Int) (d : Int)).1
            (jsDateYMD (y : Int) (m : Int) (d : Int)).2.1
            (jsDateYMD (y : Int) (m : Int) (d : Int)).2.2).toNat "" ++ ", "
          ++ AP_MON.getD ((jsDateYMD (y : Int) (m : Int) (d : Int)).2.1 - 1).toNat ""
          ++ " " ++ toString (jsDateYMD (y : Int) (m : Int) (d : Int)).2.2) := by
  unfold apDateFromYMD
  rw [h]

/-- The render of a valid date with a four-digit year at least 0100 matches the
    reference weekday and AP month table. -/
theorem apDate_render (y m d : Nat) (h100 : 100 ≤ y) (h9999 : y ≤ 9999)
    (hv : isValidDate (y : Int) (m : Int) (d : Int) = true) :
    apDateFromYMD (printYMD y m d)
      = some (AP_DOW.getD (refWeekday (y : Int) (m : Int) (d : Int)).toNat "" ++ ", "
          ++ AP_MON.getD ((m : Int) - 1).toNat "" ++ " " ++ toString (d : Int)) := by
  obtain ⟨hm1, hm2, hd1, hd2⟩ := validDate_bounds _ _ _ hv
  have hp := parseYMD_printYMD y m d (by omega) (by omega) (by omega)
  rw [apDateFromYMD_parsed _ y m d hp]
  rw [jsDateYMD_valid _ _ _ (by omega) hv]
  simp only [Prod.fst, Prod.snd]
  rw [weekday_eq_ref _ _ _ (by omega) (by omega)]

theorem apMon_getD_inj : ∀ i j : Fin 12, (AP_MON.getD i.val "" = AP_MON.getD j.val "") ↔ i = j := by
  decide

theorem apDateRangeFromYMD_self (s : String) :
    apDateRangeFromYMD s s = apDateFromYMD s := by
  unfold apDateRangeFromYMD
  by_cases h : s = ""
  · subst h
    rfl
  · rw [if_neg (by simp [h]), if_pos rfl]

theorem apDateRangeFromYMD_parsed (s1 s2 : String) (y1 m1 d1 y2 m2 d2 : Nat)
    (hne1 : s1 ≠ "") (hne2 : s2 ≠ "") (hne : s1 ≠ s2)
    (h1 : parseYMD s1 = some (y1, m1, d1)) (h2 : parseYMD s2 = some (y2, m2, d2)) :
    apDateRangeFromYMD s1 s2
      = (let p := jsDateYMD (y1 : Int) (m1 : Int) (d1 : Int)
         let q := jsDateYMD (y2 : Int) (m2 : Int) (d2 : Int)
         let sMon := AP_MON.getD (p.2.1 - 1).toNat ""
         let eMon := AP_MON.getD (q.2.1 - 1).toNat ""
         if sMon = eMon ∧ p.1 = q.1 then
           some (sMon ++ " " ++ toString p.2.2 ++ "–" ++ toString q.2.2)
         else
           some (sMon ++ " " ++ toString p.2.2 ++ "–" ++ eMon ++ " " ++ toString q.2.2)) := by
  unfold apDateRangeFromYMD
  rw [if_neg (by simp [hne1, hne2]), if_neg hne, h1, h2]

/-- The multi-day range render of valid dates with four-digit years ≥ 0100 follows
    the spec shape. -/
theorem apRange_render (y1 m1 d1 y2 m2 d2 : Nat)
    (hy1 : 100 ≤ y1) (hy1b : y1 ≤ 9999) (hy2 : 100 ≤ y2) (hy2b : y2 ≤ 9999)
    (hv1 : isValidDate (y1 : Int) (m1 : Int) (d1 : Int) = true)
    (hv2 : isValidDate (y2 : Int) (m2 : Int) (d2 : Int) = true)
    (hne : (y1, m1, d1) ≠ (y2, m2, d2)) :
    apDateRangeFromYMD (printYMD y1 m1 d1) (printYMD y2 m2 d2)
      = some (specRangeText (y1 : Int) (m1 : Int) (d1 : Int) (y2 : Int) (m2 : Int) (d2 : Int)) := by
  obtain ⟨ha1, ha2, ha3, ha4⟩ := validDate_bounds _ _ _ hv1
  obtain ⟨hb1, hb2, hb3, hb4⟩ := validDate_bounds _ _ _ hv2
  have hp1 := parseYMD_printYMD y1 m1 d1 (by omega) (by omega) (by omega)
  have hp2 := parseYMD_printYMD y2 m2 d2 (by omega) (by omega) (by omega)
  have hsne : printYMD y1 m1 d1 ≠ printYMD y2 m2 d2 := by
    intro hq
    obtain ⟨e1, e2, e3⟩ := printYMD_inj y1 m1 d1 y2 m2 d2
      (by omega) (by omega) (by omega) (by omega) (by omega) (by omega) hq
    exact hne (by simp [e1, e2, e3])
  rw [apDateRangeFromYMD_parsed _ _ y1 m1 d1 y2 m2 d2
    (printYMD_ne_empty _ _ _) (printYMD_ne_empty _ _ _) hsne hp1 hp2]
  rw [jsDateYMD_valid _ _ _ (by omega) hv1, jsDateYMD_valid _ _ _ (by omega) hv2]
  simp only [Prod.fst, Prod.snd]
  unfold specRangeText
  have hmon : (AP_MON.getD ((m1 : Int) - 1).toNat "" = AP_MON.getD ((m2 : Int) - 1).toNat "")
      ↔ m1 = m2 := by
    have i1 : ((m1 : Int) - 1).toNat < 12 := by omega
    have i2 : ((m2 : Int) - 1).toNat < 12 := by omega
    rw [show ((m1 : Int) - 1).toNat = (⟨((m1 : Int) - 1).toNat, i1⟩ : Fin 12).val from rfl,
      show ((m2 : Int) - 1).toNat = (⟨((m2 : Int) - 1).toNat, i2⟩ : Fin 12).val from rfl]
    rw [apMon_getD_inj]
    constructor
    · intro h
      have := congrArg Fin.val h
      simp at this
      omega
    · intro h
      subst h
      rfl
  by_cases hc : m1 = m2 ∧ y1 = y2
  · rw [if_pos ⟨hmon.2 hc.1, by exact_mod_cast congrArg (Nat.cast : Nat → Int) hc.2⟩]
    rw [if_pos ⟨by exact_mod_cast congrArg (Nat.cast : Nat → Int) hc.2,
      by exact_mod_cast congrArg (Nat.cast : Nat → Int) hc.1⟩]
  · rw [if_neg, if_neg]
    · intro hq
      have hy : y1 = y2 := by exact_mod_cast hq.1
      have hm : m1 = m2 := by exact_mod_cast hq.2
      exact hc ⟨hm, hy⟩
    · intro hq
      have hm : m1 = m2 := hmon.1 hq.1
      have hy : y1 = y2 := by exact_mod_cast hq.2
      exact hc ⟨hm, hy⟩

end NVF

namespace NVF

theorem jsOptS_some (s : String) (h : s ≠ "") : jsOptS (some s) = some s := by
  simp [jsOptS, h]

/-- part_001 `overlapsRange` on four truthy strings is exactly span overlap:
    the window start is at most the event end, and the event start is at most the
    window end. -/
theorem overlapsRange_chars (s e qs qe : String)
    (hs : s ≠ "") (he : e ≠ "") (hqs : qs ≠ "") (hqe : qe ≠ "") :
    overlapsRange (some s) (some e) (some qs) (some qe)
      = (jsLe qs e && jsLe s qe) := by
  unfold overlapsRange
  rw [jsOptS_some _ hs, jsOptS_some _ he, jsOptS_some _ hqs, jsOptS_some _ hqe]
  simp only [Option.isNone_some, and_self, if_false, Bool.false_eq_true]
  have h1 : jsLe qs e = !jsLt e qs := rfl
  have h2 : jsLe s qe = !jsLt qe s := rfl
  rw [h1, h2]
  rcases Bool.eq_false_or_eq_true (jsLt e qs) with hb1 | hb1 <;>
    rcases Bool.eq_false_or_eq_true (jsLt qe s) with hb2 | hb2 <;>
      simp only [hb1, hb2] <;> rfl

/-- The search.js date rule inside `filterEvents`: with a pass-through town and
    type filter, a dated event is kept exactly by `withinRange` on its start
    date. -/
theorem keepEvent_dated (e : Ev) (f : Filters) (d : String)
    (htown : f.town = "all") (htype : f.type = "any") (hd : e.dateISO = some d) (hne : d ≠ "") :
    keepEvent e f = withinRange (some d) f.startISO f.endISO := by
  unfold keepEvent
  rw [htown, htype, hd]
  rw [if_neg (by simp), if_neg (by simp)]
  rw [jsOptS_some _ hne]

/-- C1 counterexample. -/
theorem C1_counterexample :
    jsLe "2026-03-05" "2026-03-10" = true ∧ jsLe "2026-03-01" "2026-03-20" = true ∧
    filterEvents
      [{ title := "Mustard Festival", url := some "https://donapa.com/event/mf",
         dateISO := some "2026-03-01", whenStr := "March 1–10", details := "d", price := "p",
         contact := "c", address := "a", town := "napa", tag := "any",
         sourceId := some "donapa", geo := none }]
      { town := "all", type := "any", startISO := some "2026-03-05", endISO := some "2026-03-20" }
      = [] := by
  refine ⟨by decide, by decide, by decide⟩

/-- C1 amended. -/
theorem C1_amended :
    (∀ s e qs qe : String, s ≠ "" → e ≠ "" → qs ≠ "" → qe ≠ "" →
      overlapsRange (some s) (some e) (some qs) (some qe)
        = (jsLe qs e && jsLe s qe)) ∧
    overlapsRange (some "2026-03-01") (some "2026-03-10")
      (some "2026-03-05") (some "2026-03-20") = true ∧
    overlapsRange (some "2026-03-01") (some "2026-03-10")
      (some "2026-04-01") (some "2026-04-10") = false ∧
    (∀ (e : Ev) (f : Filters) (d : String), f.town = "all" → f.type = "any" →
      e.dateISO = some d → d ≠ "" →
      keepEvent e f = withinRange (some d) f.startISO f.endISO) :=
  ⟨overlapsRange_chars, by decide, by decide, keepEvent_dated⟩

/-- C1 witness. -/
theorem C1_witness :
    overlapsRange (some "2026-03-01") (some "2026-03-10") (some "2026-03-05") (some "2026-03-20")
      = (jsLe "2026-03-05" "2026-03-10" && jsLe "2026-03-01" "2026-03-20") :=
  C1_amended.1 "2026-03-01" "2026-03-10" "2026-03-05" "2026-03-20"
    (by decide) (by decide) (by decide) (by decide)

/-- C8 counterexample. -/
theorem C8_counterexample :
    normalizeEventDates (some "2026-13-40T19:00:00") (some "2026-01-01")
      = (some "2026-13-40", some "2026-01-01") ∧
    isValidDate 2026 13 40 = false ∧
    jsLt "2026-01-01" "2026-13-40" = true := by
  refine ⟨by decide, by decide, by decide⟩

theorem getYMD_shape (iso : Option String) (v : String) (h : getYMD iso = some v) :
    isYMDShape v = true := by
  unfold getYMD ymdFromISOish at h
  split at h
  · split_ifs at h with hc
    · cases h
      simp only [isYMDShape, parseYMD_mk10]
      rw [if_pos hc]
      rfl
  · cases h

/-- C8 amended. -/
theorem C8_amended :
    (∀ (iso : Option String) (v : String), getYMD iso = some v → isYMDShape v = true) ∧
    (∀ sISO eISO : Option String, getYMD eISO = none →
      (normalizeEventDates sISO eISO).2 = (normalizeEventDates sISO eISO).1) :=
  ⟨getYMD_shape, by
    intro sISO eISO h
    unfold normalizeEventDates
    rw [h]⟩

/-- C8 witness. -/
theorem C8_witness :
    isYMDShape "2026-03-01" = true ∧
    (normalizeEventDates (some "2026-03-01T19:00:00") none).2
      = (normalizeEventDates (some "2026-03-01T19:00:00") none).1 :=
  ⟨C8_amended.1 (some "2026-03-01T19:00:00") "2026-03-01" (by decide),
   C8_amended.2 (some "2026-03-01T19:00:00") none (by decide)⟩

end NVF

namespace NVF

/-- Helper: `String.fromCodePoint` succeeds on bounded code points. -/
theorem fromCodePointJS_ok (n : Nat) (h : n ≤ 0x10FFFF) :
    fromCodePointJS n = .ok [Char.ofNat n] := by
  simp [fromCodePointJS, h]

/-- Helper: the decimal-reference pass succeeds when every decimal reference is
    within the `fromCodePoint` bound. -/
theorem replaceDecRefs_ok (fuel : Nat) (cs : List Char)
    (h : decRefsBounded fuel cs = true) :
    ∃ out, replaceDecRefs fuel cs = .ok out := by
  induction fuel, cs using replaceDecRefs.induct
  case case1 t => exact ⟨[], by cases t <;> rfl⟩
  case case2 l hne => exact ⟨l, by cases l <;> rfl⟩
  case case3 fuel rest hd tl1 tl hdrop htake ih =>
    rw [htake] at hdrop
    simp only [decRefsBounded, htake, hdrop] at h
    rw [Bool.and_eq_true] at h
    obtain ⟨hb, ht⟩ := h
    obtain ⟨out, hout⟩ := ih ht
    refine ⟨Char.ofNat (digitsToNat (hd :: tl1)) :: out, ?_⟩
    simp only [replaceDecRefs, htake, hdrop,
      fromCodePointJS_ok _ (of_decide_eq_true hb), hout]
    rfl
  case case4 fuel rest hfail ih =>
    simp only [decRefsBounded] at h
    obtain ⟨out, hout⟩ := ih h
    refine ⟨'&' :: out, ?_⟩
    simp only [replaceDecRefs, hout]
    rfl
  case case5 fuel c cs hne ih =>
    simp only [decRefsBounded] at h
    obtain ⟨out, hout⟩ := ih h
    refine ⟨c :: out, ?_⟩
    simp only [replaceDecRefs, hout]
    rfl

/-- Helper: the hexadecimal-reference pass succeeds when every hexadecimal
    reference is within the `fromCodePoint` bound. -/
theorem replaceHexRefs_ok (fuel : Nat) (cs : List Char)
    (h : hexRefsBounded fuel cs = true) :
    ∃ out, replaceHexRefs fuel cs = .ok out := by
  induction fuel, cs using replaceHexRefs.induct
  case case1 t => exact ⟨[], by cases t <;> rfl⟩
  case case2 l hne => exact ⟨l, by cases l <;> rfl⟩
  case case3 fuel rest hd tl1 tl hdrop htake ih =>
    rw [htake] at hdrop
    simp only [hexRefsBounded, htake, hdrop] at h
    rw [Bool.and_eq_true] at h
    obtain ⟨hb, ht⟩ := h
    obtain ⟨out, hout⟩ := ih ht
    refine ⟨Char.ofNat (hexToNat (hd :: tl1)) :: out, ?_⟩
    simp only [replaceHexRefs, htake, hdrop,
      fromCodePointJS_ok _ (of_decide_eq_true hb), hout]
    rfl
  case case4 fuel rest hfail ih =>
    simp only [hexRefsBounded] at h
    obtain ⟨out, hout⟩ := ih h
    refine ⟨'&' :: out, ?_⟩
    simp only [replaceHexRefs, hout]
    rfl
  case case5 fuel c cs hne ih =>
    simp only [hexRefsBounded] at h
    obtain ⟨out, hout⟩ := ih h
    refine ⟨c :: out, ?_⟩
    simp only [replaceHexRefs, hout]
    rfl

/-- C10 counterexample: `decodeEntities` is not total.  The decimal character
    reference `&#1114112;` names the first code point above U+10FFFF, so
    `String.fromCodePoint` throws and `decodeEntities` (hence `cleanText`)
    propagates the exception. -/
theorem C10_counterexample :
    decodeEntities "&#1114112;" = .error () ∧
    cleanText "Live music &#1114112; tonight" = .error () ∧
    decRefsBounded ("&#1114112;".toList.length + 1) "&#1114112;".toList = false ∧
    decodeEntities "&#65;&#x42;&amp;" = .ok "AB&" := by
  refine ⟨rfl, rfl, rfl, rfl⟩

/-- C10 (amended): `decodeEntities` is total only on inputs whose numeric
    character references all stay within `String.fromCodePoint`'s bound
    U+10FFFF: the decimal pass succeeds when every `&#N;` has `N ≤ 0x10FFFF`,
    the hexadecimal pass succeeds when every `&#xH;` has `H ≤ 0x10FFFF`, and
    `decodeEntities` returns a string whenever both passes do; an oversized
    reference instead makes it throw (see the counterexample). -/
theorem C10_amended :
    (∀ (fuel : Nat) (cs : List Char), decRefsBounded fuel cs = true →
        ∃ out, replaceDecRefs fuel cs = .ok out) ∧
    (∀ (fuel : Nat) (cs : List Char), hexRefsBounded fuel cs = true →
        ∃ out, replaceHexRefs fuel cs = .ok out) ∧
    (∀ s : String,
        decRefsBounded (s.toList.length + 1) s.toList = true →
        (∀ d, replaceDecRefs (s.toList.length + 1) s.toList = .ok d →
            hexRefsBounded (d.length + 1) d = true) →
        ∃ out, decodeEntities s = .ok out) := by
  refine ⟨replaceDecRefs_ok, replaceHexRefs_ok, ?_⟩
  intro s h1 h2
  obtain ⟨d, hd⟩ := replaceDecRefs_ok _ _ h1
  obtain ⟨hx, hhx⟩ := replaceHexRefs_ok (d.length + 1) d (h2 d hd)
  refine ⟨⟨replaceNamedRefs (hx.length + 1) hx⟩, ?_⟩
  show (replaceDecRefs (s.toList.length + 1) s.toList).bind _ = _
  rw [hd]
  show (replaceHexRefs (d.length + 1) d).bind _ = _
  rw [hhx]
  rfl

/-- C10 witness: the third part of the amended statement applied to a concrete
    entity-laden string. -/
theorem C10_witness :
    ∃ out, decodeEntities "Fish &amp; Chips &#8212; &#x2759; fun" = .ok out :=
  C10_amended.2.2 "Fish &amp; Chips &#8212; &#x2759; fun" (by decide)
    (fun d hd => by
      have : d = "Fish &amp; Chips — &#x2759; fun".toList := by
        have h := hd
        rw [show replaceDecRefs ("Fish &amp; Chips &#8212; &#x2759; fun".toList.length + 1)
              "Fish &amp; Chips &#8212; &#x2759; fun".toList
            = .ok "Fish &amp; Chips — &#x2759; fun".toList from rfl] at h
        exact (Except.ok.injEq _ _).mp h.symm ▸ rfl
      rw [this]
      decide)

/-- C7 counterexample: the deployed `inferPriceFromText` in src/api/search.js
    matches a bare "free" substring, so "Smoke-free venue" yields the price
    "Free." even though no free-admission phrase of the part_000 allow-list
    occurs in it; the allow-list version (part_000) correctly rejects it. -/
theorem C7_counterexample :
    inferPriceFromText "Smoke-free venue" = .ok (some "Free.") ∧
    Part000.inferPriceFromText "Smoke-free venue" = .ok none ∧
    containsSub (jsLower "Smoke-free venue") "free" = true ∧
    (Part000.freeSignals.any fun x => containsSub (jsLower "Smoke-free venue") x) = false := by
  refine ⟨rfl, rfl, rfl, rfl⟩

/-- C7 (amended): only the part_000 iteration restricts the "free" scan to the
    allow-list of free-admission phrases; the deployed search.js
    `inferPriceFromText` returns "Free." for ANY substring occurrence of
    "free", "no cover" or "complimentary" in the lower-cased cleaned text.
    Both characterizations are proved for every input whose cleaning
    succeeds and is non-empty. -/
theorem C7_amended :
    (∀ t ct : String, cleanText t = .ok ct → jsLower ct ≠ "" →
      (inferPriceFromText t = .ok (some "Free.") ↔
        (["free", "no cover", "complimentary"].any
          fun x => containsSub (jsLower ct) x) = true)) ∧
    (∀ t ct : String, cleanText t = .ok ct → jsLower ct ≠ "" →
      (Part000.inferPriceFromText t = .ok (some "Free.") ↔
        (Part000.freeSignals.any fun x => containsSub (jsLower ct) x) = true)) ∧
    Part000.inferPriceFromText "Free admission all day" = .ok (some "Free.") := by
  refine ⟨?_, ?_, rfl⟩
  · intro t ct h hne
    unfold inferPriceFromText
    rw [h]
    show Except.ok _ = _ ↔ _
    rcases Bool.eq_false_or_eq_true
        (["free", "no cover", "complimentary"].any fun x => containsSub (jsLower ct) x)
      with hb | hb <;> simp [hb, hne]
  · intro t ct h hne
    unfold Part000.inferPriceFromText
    rw [h]
    show Except.ok _ = _ ↔ _
    rcases Bool.eq_false_or_eq_true
        (Part000.freeSignals.any fun x => containsSub (jsLower ct) x)
      with hb | hb <;> simp [hb, hne]

/-- C7 witness: the search.js characterization applied to "No cover tonight". -/
theorem C7_witness :
    inferPriceFromText "No cover tonight" = .ok (some "Free.") :=
  (C7_amended.1 "No cover tonight" "No cover tonight" rfl (by decide)).2 (by decide)

/-- C9: a candidate whose extraction fails is never an error of
    `extractOrFallback`: with no usable title the candidate is silently
    dropped; with a usable but generic title it is dropped; with a usable
    non-generic title it becomes the fallback record, which carries that
    title, no ISO date, and the fixed fallback display text in every other
    display field. -/
theorem C9_theorem (outcome : Except Unit Ev) (url : String) (opts : ExtractOpts)
    (title : Option String) (herr : outcome = .error ()) :
    (jsOptS title = none → extractOrFallback outcome url title opts = .ok none) ∧
    (∀ t, jsOptS title = some t → isGenericTitle t = .ok true →
        extractOrFallback outcome url title opts = .ok none) ∧
    (∀ t, jsOptS title = some t → isGenericTitle t = .ok false →
        extractOrFallback outcome url title opts
          = .ok (some (fallbackRecord url t opts)) ∧
        (fallbackRecord url t opts).title = t ∧
        (fallbackRecord url t opts).dateISO = none ∧
        (fallbackRecord url t opts).whenStr = "Date and time on website." ∧
        (fallbackRecord url t opts).details = "Details on website." ∧
        (fallbackRecord url t opts).price = "Price not provided." ∧
        (fallbackRecord url t opts).address = "Venue address not provided.") := by
  subst herr
  refine ⟨?_, ?_, ?_⟩
  · intro h
    unfold extractOrFallback
    rw [h]
  · intro t ht hg
    unfold extractOrFallback
    rw [ht]
    show (isGenericTitle t).bind _ = _
    rw [hg]
    rfl
  · intro t ht hg
    refine ⟨?_, rfl, rfl, rfl, rfl, rfl, rfl⟩
    unfold extractOrFallback
    rw [ht]
    show (isGenericTitle t).bind _ = _
    rw [hg]
    rfl

/-- C9 witness: a failed fetch with the usable listing title "Jazz Night"
    becomes a fallback record. -/
theorem C9_witness :
    extractOrFallback (.error ()) "https://example.com/e" (some "Jazz Night")
        ⟨some "napa", none, some "src"⟩
      = .ok (some (fallbackRecord "https://example.com/e" "Jazz Night"
          ⟨some "napa", none, some "src"⟩)) :=
  ((C9_theorem (.error ()) "https://example.com/e" ⟨some "napa", none, some "src"⟩
      (some "Jazz Night") rfl).2.2 "Jazz Night" rfl rfl).1

end NVF

namespace NVF

/-- C5 counterexample: the single-day renderer does not match the reference
    calendar on every valid ISO date.  `Date.UTC` remaps two-digit years 0-99
    to 19xx, so the valid date 0040-05-01 (a Tuesday) is rendered with the
    weekday of 1940-05-01, "Wed". -/
theorem C5_counterexample :
    isValidDate 40 5 1 = true ∧
    apDateFromYMD "0040-05-01" = some "Wed, May 1" ∧
    AP_DOW.getD (refWeekday 40 5 1).toNat "" = "Tue" := by
  refine ⟨by decide, rfl, rfl⟩

/-- C5 (amended): for valid dates whose year is between 0100 and 9999 the
    single-day renderer produces "Weekday, Month Day" with the weekday equal
    to the reference (Zeller) calculation and the month from the fixed AP
    table; years 00-99 are remapped to 19xx by `Date.UTC` first (see the
    counterexample). -/
theorem C5_amended :
    apDateFromYMD "2026-01-17" = some "Sat, Jan. 17" ∧
    (∀ y m d : Nat, 100 ≤ y → y ≤ 9999 →
      isValidDate (y : Int) (m : Int) (d : Int) = true →
      apDateFromYMD (printYMD y m d)
        = some (AP_DOW.getD (refWeekday (y : Int) (m : Int) (d : Int)).toNat "" ++ ", "
            ++ AP_MON.getD ((m : Int) - 1).toNat "" ++ " " ++ toString (d : Int))) :=
  ⟨rfl, fun y m d h1 h2 hv => apDate_render y m d h1 h2 hv⟩

/-- C5 witness: the amended render statement at 2026-01-17. -/
theorem C5_witness :
    apDateFromYMD (printYMD 2026 1 17)
      = some (AP_DOW.getD (refWeekday ((2026 : Nat) : Int) ((1 : Nat) : Int)
            ((17 : Nat) : Int)).toNat "" ++ ", "
          ++ AP_MON.getD (((1 : Nat) : Int) - 1).toNat "" ++ " "
          ++ toString ((17 : Nat) : Int)) :=
  C5_amended.2 2026 1 17 (by decide) (by decide) (by decide)

/-- C6 counterexample: the range renderer does not use each original month's
    AP abbreviation on every valid pair.  Year 0 is a proleptic-Gregorian leap
    year, so 0000-02-29..0000-03-05 is a valid cross-month span, but
    `Date.UTC` remaps year 0 to 1900 (not a leap year), normalizing the start
    to March 1 and rendering "March 1–5" instead of "Feb. 29–March 5". -/
theorem C6_counterexample :
    isValidDate 0 2 29 = true ∧
    apDateRangeFromYMD "0000-02-29" "0000-03-05" = some "March 1–5" ∧
    specRangeText 0 2 29 0 3 5 = "Feb. 29–March 5" := by
  refine ⟨by decide, rfl, rfl⟩

/-- C6 (amended): for valid dates with years between 0100 and 9999 the range
    renderer omits the weekday and uses the AP month abbreviations, collapsing
    the second month name when the (normalized) month and year agree:
    "Jan. 17–31" within one month, "Jan. 28–Feb. 3" across months; equal
    endpoint strings fall back to the single-day form.  Years 00-99 are first
    remapped to 19xx (see the counterexample). -/
theorem C6_amended :
    apDateRangeFromYMD "2026-01-17" "2026-01-31" = some "Jan. 17–31" ∧
    apDateRangeFromYMD "2026-01-28" "2026-02-03" = some "Jan. 28–Feb. 3" ∧
    (∀ s : String, apDateRangeFromYMD s s = apDateFromYMD s) ∧
    (∀ y1 m1 d1 y2 m2 d2 : Nat,
      100 ≤ y1 → y1 ≤ 9999 → 100 ≤ y2 → y2 ≤ 9999 →
      isValidDate (y1 : Int) (m1 : Int) (d1 : Int) = true →
      isValidDate (y2 : Int) (m2 : Int) (d2 : Int) = true →
      (y1, m1, d1) ≠ (y2, m2, d2) →
      apDateRangeFromYMD (printYMD y1 m1 d1) (printYMD y2 m2 d2)
        = some (specRangeText (y1 : Int) (m1 : Int) (d1 : Int)
            (y2 : Int) (m2 : Int) (d2 : Int))) :=
  ⟨rfl, rfl, apDateRangeFromYMD_self,
   fun _ _ _ _ _ _ a b c d e f g => apRange_render _ _ _ _ _ _ a b c d e f g⟩

/-- C6 witness: the amended range statement at 2026-01-17..2026-01-31. -/
theorem C6_witness :
    apDateRangeFromYMD (printYMD 2026 1 17) (printYMD 2026 1 31)
      = some (specRangeText ((2026 : Nat) : Int) ((1 : Nat) : Int) ((17 : Nat) : Int)
          ((2026 : Nat) : Int) ((1 : Nat) : Int) ((31 : Nat) : Int)) :=
  C6_amended.2.2.2 2026 1 17 2026 1 31 (by decide) (by decide) (by decide) (by decide)
    (by decide) (by decide) (by decide)

end NVF

namespace NVF

set_option maxHeartbeats 3200000 in
/-- Exhaustive check of the per-time rendering facts over all 24x60 clocks. -/
theorem apTimeBall :
    ((List.range 24).all fun h => (List.range 60).all fun m =>
      decide (Part000.apTimeFromISOClock (clockStr h m) = some (apTimeParts h m) ∧
        containsSub (apTimeParts h m) ":" = !decide (m = 0) ∧
        countOccs (apTimeParts h m) "a.m." = (if h < 12 then 1 else 0) ∧
        countOccs (apTimeParts h m) "p.m." = (if h < 12 then 0 else 1) ∧
        countOccs (stripMeridiem (apTimeParts h m)) "a.m." = 0 ∧
        countOccs (stripMeridiem (apTimeParts h m)) "p.m." = 0 ∧
        jsEndsWith (apTimeParts h m) "a.m." = decide (h < 12) ∧
        leadingNat (apTimeParts h m) = (if h % 12 = 0 then 12 else h % 12) ∧
        apTimeFromISOClock (fun _ => none) (clockStr h m)
          = (if h = 0 ∧ m = 0 then none else some (apTimeParts h m)))) = true := by
  rfl

/-- The per-time facts of `apTimeBall` at any hour/minute pair in range. -/
theorem apTimeBall_elim (h m : Nat) (hh : h < 24) (hm : m < 60) :
    Part000.apTimeFromISOClock (clockStr h m) = some (apTimeParts h m) ∧
    containsSub (apTimeParts h m) ":" = !decide (m = 0) ∧
    countOccs (apTimeParts h m) "a.m." = (if h < 12 then 1 else 0) ∧
    countOccs (apTimeParts h m) "p.m." = (if h < 12 then 0 else 1) ∧
    countOccs (stripMeridiem (apTimeParts h m)) "a.m." = 0 ∧
    countOccs (stripMeridiem (apTimeParts h m)) "p.m." = 0 ∧
    jsEndsWith (apTimeParts h m) "a.m." = decide (h < 12) ∧
    leadingNat (apTimeParts h m) = (if h % 12 = 0 then 12 else h % 12) ∧
    apTimeFromISOClock (fun _ => none) (clockStr h m)
      = (if h = 0 ∧ m = 0 then none else some (apTimeParts h m)) := by
  have H := apTimeBall
  rw [List.all_eq_true] at H
  have H1 := H h (List.mem_range.mpr hh)
  rw [List.all_eq_true] at H1
  exact of_decide_eq_true (H1 m (List.mem_range.mpr hm))

/-- part_000 `formatTimeRange` on two rendered times: same meridiem and a first
    hour other than 12 drop the first meridiem and join with " to ". -/
theorem part000_range_eq (a b t1 t2 : String)
    (h1 : Part000.apTimeFromISOClock a = some t1)
    (h2 : Part000.apTimeFromISOClock b = some t2)
    (hne : t1 ≠ t2)
    (hmer : (if jsEndsWith t1 "a.m." then "a.m." else "p.m.")
          = (if jsEndsWith t2 "a.m." then "a.m." else "p.m."))
    (hlead : leadingNat t1 ≠ 12) :
    Part000.formatTimeRange a b = some (stripMeridiem t1 ++ " to " ++ t2) := by
  unfold Part000.formatTimeRange
  rw [h1, h2]
  show (if t1 = t2 then some t1
    else if (if jsEndsWith t1 "a.m." then "a.m." else "p.m.")
        = (if jsEndsWith t2 "a.m." then "a.m." else "p.m.") ∧ leadingNat t1 ≠ 12
      then some (stripMeridiem t1 ++ " to " ++ t2)
      else some (t1 ++ " to " ++ t2)) = some (stripMeridiem t1 ++ " to " ++ t2)
  rw [if_neg hne, if_pos ⟨hmer, hlead⟩]

/-- search.js `formatTimeRange` on two distinct rendered times: a plain en-dash
    join with both meridiems kept. -/
theorem searchjs_range_eq (tz : String → Option String) (a b t1 t2 : String)
    (h1 : apTimeFromISOClock tz a = some t1)
    (h2 : apTimeFromISOClock tz b = some t2)
    (hne : t1 ≠ t2) :
    formatTimeRange tz a b = some (t1 ++ "–" ++ t2) := by
  unfold formatTimeRange
  rw [h1, h2]
  show (if t1 = t2 then some t1 else some (t1 ++ "–" ++ t2)) = some (t1 ++ "–" ++ t2)
  rw [if_neg hne]

/-- C3 counterexample: the deployed search.js `formatTimeRange` never drops a
    meridiem — a same-meridiem evening range renders with "p.m." twice; the
    " to "-joining, meridiem-dropping renderer exists only in part_000. -/
theorem C3_counterexample :
    formatTimeRange (fun _ => none) "2026-05-02T19:00" "2026-05-02T21:00"
      = some "7 p.m.–9 p.m." ∧
    countOccs "7 p.m.–9 p.m." "p.m." = 2 ∧
    Part000.formatTimeRange "2026-05-02T19:00" "2026-05-02T21:00" = some "7 to 9 p.m." ∧
    countOccs "7 to 9 p.m." "p.m." = 1 := by
  refine ⟨rfl, rfl, rfl, rfl⟩

/-- C3 (amended): minutes collapse exactly when zero in every rendered time
    (14:00 is "2 p.m.", 14:30 is "2:30 p.m."), each rendered time carries
    exactly one meridiem and `stripMeridiem` removes it; the part_000
    `formatTimeRange` drops the first meridiem of a same-meridiem range whose
    first hour is not 12 and joins with " to ", while the deployed search.js
    `formatTimeRange` keeps both meridiems and joins with an en dash. -/
theorem C3_amended :
    apTimeParts 14 0 = "2 p.m." ∧
    apTimeParts 14 30 = "2:30 p.m." ∧
    (∀ h m : Nat, h < 24 → m < 60 →
      Part000.apTimeFromISOClock (clockStr h m) = some (apTimeParts h m) ∧
      containsSub (apTimeParts h m) ":" = !decide (m = 0) ∧
      countOccs (apTimeParts h m) "a.m." = (if h < 12 then 1 else 0) ∧
      countOccs (apTimeParts h m) "p.m." = (if h < 12 then 0 else 1) ∧
      countOccs (stripMeridiem (apTimeParts h m)) "a.m." = 0 ∧
      countOccs (stripMeridiem (apTimeParts h m)) "p.m." = 0) ∧
    (∀ h1 m1 h2 m2 : Nat, h1 < 24 → m1 < 60 → h2 < 24 → m2 < 60 →
      (h1 < 12 ↔ h2 < 12) →
      apTimeParts h1 m1 ≠ apTimeParts h2 m2 →
      (if h1 % 12 = 0 then 12 else h1 % 12) ≠ 12 →
      Part000.formatTimeRange (clockStr h1 m1) (clockStr h2 m2)
        = some (stripMeridiem (apTimeParts h1 m1) ++ " to " ++ apTimeParts h2 m2)) ∧
    (∀ h1 m1 h2 m2 : Nat, h1 < 24 → m1 < 60 → h2 < 24 → m2 < 60 →
      ¬(h1 = 0 ∧ m1 = 0) → ¬(h2 = 0 ∧ m2 = 0) →
      apTimeParts h1 m1 ≠ apTimeParts h2 m2 →
      formatTimeRange (fun _ => none) (clockStr h1 m1) (clockStr h2 m2)
        = some (apTimeParts h1 m1 ++ "–" ++ apTimeParts h2 m2)) := by
  refine ⟨rfl, rfl, ?_, ?_, ?_⟩
  · intro h m hh hm
    obtain ⟨a1, a2, a3, a4, a5, a6, _, _, _⟩ := apTimeBall_elim h m hh hm
    exact ⟨a1, a2, a3, a4, a5, a6⟩
  · intro h1 m1 h2 m2 hh1 hm1 hh2 hm2 hiff hne hlead
    obtain ⟨a1, _, _, _, _, _, e1, l1, _⟩ := apTimeBall_elim h1 m1 hh1 hm1
    obtain ⟨a2, _, _, _, _, _, e2, _, _⟩ := apTimeBall_elim h2 m2 hh2 hm2
    refine part000_range_eq _ _ _ _ a1 a2 hne ?_ ?_
    · rw [e1, e2]
      by_cases hc : h1 < 12
      · have hc2 := hiff.1 hc
        simp [hc, hc2]
      · have hc2 : ¬ h2 < 12 := fun k => hc (hiff.2 k)
        simp [hc, hc2]
    · rw [l1]
      exact hlead
  · intro h1 m1 h2 m2 hh1 hm1 hh2 hm2 hz1 hz2 hne
    obtain ⟨_, _, _, _, _, _, _, _, d1⟩ := apTimeBall_elim h1 m1 hh1 hm1
    obtain ⟨_, _, _, _, _, _, _, _, d2⟩ := apTimeBall_elim h2 m2 hh2 hm2
    rw [if_neg hz1] at d1
    rw [if_neg hz2] at d2
    exact searchjs_range_eq _ _ _ _ _ d1 d2 hne

/-- C3 witness: the part_000 meridiem-drop statement at 19:00-21:00,
    rendering "7 to 9 p.m.". -/
theorem C3_witness :
    Part000.formatTimeRange (clockStr 19 0) (clockStr 21 0)
      = some (stripMeridiem (apTimeParts 19 0) ++ " to " ++ apTimeParts 21 0) ∧
    stripMeridiem (apTimeParts 19 0) ++ " to " ++ apTimeParts 21 0 = "7 to 9 p.m." :=
  ⟨C3_amended.2.2.2.1 19 0 21 0 (by decide) (by decide) (by decide) (by decide)
      (by decide) (by decide) (by decide), rfl⟩

end NVF

namespace NVF

theorem containsStr_iff (l : List String) (a : String) : l.contains a = true ↔ a ∈ l := by
  simp

/-- The part_000 header+body dedupe emits pairwise-distinct keys, none in `seen`. -/
theorem dedupHBGo_nodup (seen : List String) (l : List HB) :
    ((dedupHBGo seen l).map hbKey).Nodup ∧
    ∀ x ∈ dedupHBGo seen l, hbKey x ∉ seen := by
  induction l generalizing seen with
  | nil => exact ⟨List.nodup_nil, by intro x hx; cases hx⟩
  | cons a rest ih =>
    unfold dedupHBGo
    by_cases h : seen.contains (hbKey a) = true
    · rw [if_pos h]
      exact ih seen
    · rw [if_neg h]
      obtain ⟨ihn, ihs⟩ := ih (hbKey a :: seen)
      constructor
      · rw [List.map_cons, List.nodup_cons]
        refine ⟨?_, ihn⟩
        intro hmem
        obtain ⟨y, hy, hk⟩ := List.mem_map.1 hmem
        exact ihs y hy (by rw [hk]; exact List.mem_cons_self _ _)
      · intro x hx
        rcases List.mem_cons.1 hx with rfl | hx'
        · intro hmem
          exact h ((containsStr_iff _ _).2 hmem)
        · intro hmem
          exact ihs x hx' (List.mem_cons_of_mem _ hmem)

/-- Every input record's key survives the part_000 dedupe. -/
theorem dedupHBGo_covers (seen : List String) (l : List HB) (x : HB) :
    x ∈ l → hbKey x ∉ seen → ∃ y ∈ dedupHBGo seen l, hbKey y = hbKey x := by
  induction l generalizing seen with
  | nil => intro hx _; cases hx
  | cons a rest ih =>
    intro hx hseen
    unfold dedupHBGo
    by_cases h : seen.contains (hbKey a) = true
    · rw [if_pos h]
      rcases List.mem_cons.1 hx with rfl | hx'
      · exact absurd ((containsStr_iff _ _).1 h) hseen
      · exact ih seen hx' hseen
    · rw [if_neg h]
      rcases List.mem_cons.1 hx with rfl | hx'
      · exact ⟨x, List.mem_cons_self _ _, rfl⟩
      · by_cases hk : hbKey x = hbKey a
        · exact ⟨a, List.mem_cons_self _ _, hk.symm⟩
        · have hs2 : hbKey x ∉ (hbKey a :: seen) := by
            intro hm
            rcases List.mem_cons.1 hm with e | hm2
            · exact hk e
            · exact hseen hm2
          obtain ⟨y, hy, hky⟩ := ih (hbKey a :: seen) hx' hs2
          exact ⟨y, List.mem_cons_of_mem _ hy, hky⟩

/-- The deployed search.js dedupe emits pairwise-distinct `evKey`s. -/
theorem dedupeGo_nodup (seen : List String) (l : List Ev) :
    ((dedupeGo seen l).map evKey).Nodup ∧
    ∀ x ∈ dedupeGo seen l, evKey x ∉ seen := by
  induction l generalizing seen with
  | nil => exact ⟨List.nodup_nil, by intro x hx; cases hx⟩
  | cons a rest ih =>
    unfold dedupeGo
    by_cases h : (evKey a = "" ∨ seen.contains (evKey a) = true)
    · rw [if_pos h]
      exact ih seen
    · rw [if_neg h]
      obtain ⟨ihn, ihs⟩ := ih (evKey a :: seen)
      constructor
      · rw [List.map_cons, List.nodup_cons]
        refine ⟨?_, ihn⟩
        intro hmem
        obtain ⟨y, hy, hk⟩ := List.mem_map.1 hmem
        exact ihs y hy (by rw [hk]; exact List.mem_cons_self _ _)
      · intro x hx
        rcases List.mem_cons.1 hx with rfl | hx'
        · intro hmem
          exact h (Or.inr ((containsStr_iff _ _).2 hmem))
        · intro hmem
          exact ihs x hx' (List.mem_cons_of_mem _ hmem)

/-- C2 counterexample: the deployed search.js handler dedupes by
    `url || title+"||"+dateISO`, not by rendered header+body.  Two events with
    the same title, date and display text but different URLs both survive, so
    the response carries the identical header+body pair twice. -/
theorem C2_counterexample :
    ((handlerCards
        [{ title := "Jazz Night", url := some "https://a.com/1", dateISO := some "2026-05-01",
           whenStr := "Friday 7 p.m.", details := "Live jazz.", price := "Free.",
           contact := "555-0100.", address := "1 Main St, Napa.", town := "napa",
           tag := "music", sourceId := some "s1", geo := none },
         { title := "Jazz Night", url := some "https://b.com/2", dateISO := some "2026-05-01",
           whenStr := "Friday 7 p.m.", details := "Live jazz.", price := "Free.",
           contact := "555-0100.", address := "1 Main St, Napa.", town := "napa",
           tag := "music", sourceId := some "s2", geo := none }] 5).map
      fun c => (c.header, c.body)).count
        ("Jazz Night", "Friday 7 p.m. Live jazz. Free. 555-0100. 1 Main St, Napa.") = 2 := by
  rfl

/-- C2 (amended): header+body uniqueness is a part_000 property, where the
    handler dedupes on the rendered `header + "|" + body` key: each input
    record's key appears exactly once in the output.  The deployed search.js
    `dedupeEvents` instead keys on `url || title+"||"+dateISO` (its keys are
    pairwise distinct, but identical header+body pairs with different URLs are
    both kept — see the counterexample). -/
theorem C2_amended :
    (∀ (all : List HB) (x : HB), x ∈ all →
      ((dedupeByHeaderBody all).map hbKey).count (hbKey x) = 1) ∧
    (∀ events : List Ev, ((dedupeEvents events).map evKey).Nodup) := by
  constructor
  · intro all x hx
    have h1 := (dedupHBGo_nodup [] all).1
    obtain ⟨y, hy, hk⟩ := dedupHBGo_covers [] all x hx (by simp)
    have hmem : hbKey x ∈ (dedupeByHeaderBody all).map hbKey :=
      List.mem_map.2 ⟨y, hy, hk⟩
    exact List.count_eq_one_of_mem h1 hmem
  · intro events
    exact (dedupeGo_nodup [] events).1

/-- C2 witness: the part_000 uniqueness statement on a duplicated record. -/
theorem C2_witness :
    ((dedupeByHeaderBody [⟨"Jazz Night", "Fri 7 p.m."⟩, ⟨"Jazz Night", "Fri 7 p.m."⟩]).map
        hbKey).count (hbKey ⟨"Jazz Night", "Fri 7 p.m."⟩) = 1 :=
  C2_amended.1 _ _ (List.mem_cons_self _ _)

end NVF

namespace NVF

/-- C4 counterexample: the deployed search.js handler interleaves by SOURCE,
    not by town.  With two sources covering five towns (each town contributing
    two qualifying events), a town=all limit=5 request repeats towns before
    all five appear. -/
theorem C4_counterexample :
    ((handlerSelection
        [{ title := "E1", url := some "u1", dateISO := some "2026-05-01", whenStr := "w",
           details := "d", price := "p", contact := "c", address := "a", town := "napa",
           tag := "any", sourceId := some "s1", geo := none },
         { title := "E2", url := some "u2", dateISO := some "2026-05-01", whenStr := "w",
           details := "d", price := "p", contact := "c", address := "a", town := "napa",
           tag := "any", sourceId := some "s1", geo := none },
         { title := "E3", url := some "u3", dateISO := some "2026-05-01", whenStr := "w",
           details := "d", price := "p", contact := "c", address := "a", town := "st-helena",
           tag := "any", sourceId := some "s1", geo := none },
         { title := "E4", url := some "u4", dateISO := some "2026-05-01", whenStr := "w",
           details := "d", price := "p", contact := "c", address := "a", town := "st-helena",
           tag := "any", sourceId := some "s1", geo := none },
         { title := "E5", url := some "u5", dateISO := some "2026-05-01", whenStr := "w",
           details := "d", price := "p", contact := "c", address := "a", town := "american-canyon",
           tag := "any", sourceId := some "s1", geo := none },
         { title := "E6", url := some "u6", dateISO := some "2026-05-01", whenStr := "w",
           details := "d", price := "p", contact := "c", address := "a", town := "american-canyon",
           tag := "any", sourceId := some "s1", geo := none },
         { title := "F1", url := some "v1", dateISO := some "2026-05-01", whenStr := "w",
           details := "d", price := "p", contact := "c", address := "a", town := "calistoga",
           tag := "any", sourceId := some "s2", geo := none },
         { title := "F2", url := some "v2", dateISO := some "2026-05-01", whenStr := "w",
           details := "d", price := "p", contact := "c", address := "a", town := "calistoga",
           tag := "any", sourceId := some "s2", geo := none },
         { title := "F3", url := some "v3", dateISO := some "2026-05-01", whenStr := "w",
           details := "d", price := "p", contact := "c", address := "a", town := "yountville",
           tag := "any", sourceId := some "s2", geo := none },
         { title := "F4", url := some "v4", dateISO := some "2026-05-01", whenStr := "w",
           details := "d", price := "p", contact := "c", address := "a", town := "yountville",
           tag := "any", sourceId := some "s2", geo := none }] 5).map
      fun e => e.town)
      = ["napa", "calistoga", "napa", "calistoga", "st-helena"] := by
  rfl

/-- C4 (amended): the town round-robin exists only in part_001's
    `balanceAcrossTowns`.  When each of the five named towns supplies at least
    one record and the limit is 5, the first pass picks exactly one record per
    town — the head of each town's bucket — in the fixed priority order napa,
    st-helena, yountville, calistoga, american-canyon, and the leftover fill
    never runs.  (The deployed search.js handler instead interleaves by
    `sourceId`; see the counterexample.) -/
theorem C4_amended (items : List PRec) (a b c d e : PRec)
    (ra rb rc rd re : List PRec)
    (hna : items.filter (fun it => bucketKeyOf it = "napa") = a :: ra)
    (hsh : items.filter (fun it => bucketKeyOf it = "st-helena") = b :: rb)
    (hyv : items.filter (fun it => bucketKeyOf it = "yountville") = c :: rc)
    (hcg : items.filter (fun it => bucketKeyOf it = "calistoga") = d :: rd)
    (hac : items.filter (fun it => bucketKeyOf it = "american-canyon") = e :: re) :
    balanceAcrossTowns items 5 = [a, b, c, d, e] ∧
    (balanceAcrossTowns items 5).map bucketKeyOf
      = ["napa", "st-helena", "yountville", "calistoga", "american-canyon"] := by
  have hmain : balanceAcrossTowns items 5 = [a, b, c, d, e] := by
    unfold balanceAcrossTowns
    simp only [TOWN_ORDER, List.map]
    rw [hna, hsh, hyv, hcg, hac]
    set q6 := items.filter (fun it => bucketKeyOf it = "all") with hq6
    set q7 := items.filter (fun it => bucketKeyOf it = "other") with hq7
    have h0 : rrRound [q6, q7] 0 = ([], [q6, q7]) := by
      cases q6 <;> rfl
    have h1 : rrRound [(e :: re), q6, q7] 1
        = (e :: (rrRound [q6, q7] 0).1, re :: (rrRound [q6, q7] 0).2) := rfl
    have h2 : rrRound [(d :: rd), (e :: re), q6, q7] 2
        = (d :: (rrRound [(e :: re), q6, q7] 1).1,
           rd :: (rrRound [(e :: re), q6, q7] 1).2) := rfl
    have h3 : rrRound [(c :: rc), (d :: rd), (e :: re), q6, q7] 3
        = (c :: (rrRound [(d :: rd), (e :: re), q6, q7] 2).1,
           rc :: (rrRound [(d :: rd), (e :: re), q6, q7] 2).2) := rfl
    have h4 : rrRound [(b :: rb), (c :: rc), (d :: rd), (e :: re), q6, q7] 4
        = (b :: (rrRound [(c :: rc), (d :: rd), (e :: re), q6, q7] 3).1,
           rb :: (rrRound [(c :: rc), (d :: rd), (e :: re), q6, q7] 3).2) := rfl
    have h5 : rrRound [(a :: ra), (b :: rb), (c :: rc), (d :: rd), (e :: re), q6, q7] 5
        = (a :: (rrRound [(b :: rb), (c :: rc), (d :: rd), (e :: re), q6, q7] 4).1,
           ra :: (rrRound [(b :: rb), (c :: rc), (d :: rd), (e :: re), q6, q7] 4).2) := rfl
    have hR : rrRound [(a :: ra), (b :: rb), (c :: rc), (d :: rd), (e :: re), q6, q7] 5
        = ([a, b, c, d, e], [ra, rb, rc, rd, re, q6, q7]) := by
      rw [h5, h4, h3, h2, h1, h0]
    have hL0 : ∀ X : List (List PRec), rrLoop 4 X 0 = [] := fun _ => rfl
    have hL : rrLoop 5 [(a :: ra), (b :: rb), (c :: rc), (d :: rd), (e :: re), q6, q7] 5
        = [a, b, c, d, e] := by
      rw [show rrLoop 5 [(a :: ra), (b :: rb), (c :: rc), (d :: rd), (e :: re), q6, q7] 5
          = (if (5 : Nat) = 0 then []
             else if (rrRound [(a :: ra), (b :: rb), (c :: rc), (d :: rd), (e :: re),
                  q6, q7] 5).1.isEmpty then []
             else (rrRound [(a :: ra), (b :: rb), (c :: rc), (d :: rd), (e :: re), q6, q7] 5).1
               ++ rrLoop 4
                 (rrRound [(a :: ra), (b :: rb), (c :: rc), (d :: rd), (e :: re), q6, q7] 5).2
                 (5 - (rrRound [(a :: ra), (b :: rb), (c :: rc), (d :: rd), (e :: re),
                    q6, q7] 5).1.length)) from rfl]
      rw [hR]
      simp [hL0]
    rw [hL]
    simp
  refine ⟨hmain, ?_⟩
  have hka : bucketKeyOf a = "napa" := by
    have := List.mem_filter.1 (hna ▸ List.mem_cons_self a ra)
    exact of_decide_eq_true this.2
  have hkb : bucketKeyOf b = "st-helena" := by
    have := List.mem_filter.1 (hsh ▸ List.mem_cons_self b rb)
    exact of_decide_eq_true this.2
  have hkc : bucketKeyOf c = "yountville" := by
    have := List.mem_filter.1 (hyv ▸ List.mem_cons_self c rc)
    exact of_decide_eq_true this.2
  have hkd : bucketKeyOf d = "calistoga" := by
    have := List.mem_filter.1 (hcg ▸ List.mem_cons_self d rd)
    exact of_decide_eq_true this.2
  have hke : bucketKeyOf e = "american-canyon" := by
    have := List.mem_filter.1 (hac ▸ List.mem_cons_self e re)
    exact of_decide_eq_true this.2
  rw [hmain]
  simp [hka, hkb, hkc, hkd, hke]

/-- C4 witness: `balanceAcrossTowns` on one record per named town. -/
theorem C4_witness :
    balanceAcrossTowns
      [⟨"h1", "b1", "napa"⟩, ⟨"h2", "b2", "st-helena"⟩, ⟨"h3", "b3", "yountville"⟩,
       ⟨"h4", "b4", "calistoga"⟩, ⟨"h5", "b5", "american-canyon"⟩] 5
      = [⟨"h1", "b1", "napa"⟩, ⟨"h2", "b2", "st-helena"⟩, ⟨"h3", "b3", "yountville"⟩,
         ⟨"h4", "b4", "calistoga"⟩, ⟨"h5", "b5", "american-canyon"⟩] :=
  (C4_amended
    [⟨"h1", "b1", "napa"⟩, ⟨"h2", "b2", "st-helena"⟩, ⟨"h3", "b3", "yountville"⟩,
     ⟨"h4", "b4", "calistoga"⟩, ⟨"h5", "b5", "american-canyon"⟩]
    ⟨"h1", "b1", "napa"⟩ ⟨"h2", "b2", "st-helena"⟩ ⟨"h3", "b3", "yountville"⟩
    ⟨"h4", "b4", "calistoga"⟩ ⟨"h5", "b5", "american-canyon"⟩
    [] [] [] [] [] rfl rfl rfl rfl rfl).1

end NVF
